import Mathlib

/-!
# BBMP launcher: the launch orchestrator of `electron/main.js`

A shallow embedding of the main-process code: release resolution
(`getLatestRelease`), the redirect-following downloader (`download`), the
artifact store (`ensureJar`, `download-jar-url`), the Java provisioner
(`checkJava`, `downloadJava`) and the process supervisor (`launch-bbmp`,
`stop-bbmp`, `is-running`, the child `close` handler).

Conventions of the embedding.

* Module-level variables (`mainWindow`, `bbmpProc`) and the filesystem are
  fields of an explicit `World`; every function threads the world.
* Everything the code asks of its surroundings (the network, the spawned
  tools, `node:path`, `process.platform`) is a field of `Env`.
* A promise ends as a `Settled` value: resolved, rejected, or never settled;
  the world reached at that point is kept. A thrown exception is a rejection.
* `download` follows redirects without a bound; the embedding takes a fuel
  argument and returns `none` when it runs out.
* A handler runs from its first statement to its reply without another
  handler or child event in between.
* JavaScript truthiness is kept: `x || d` yields `d` for `undefined`, for the
  empty string and for the number zero.
-/

namespace BBMP

/-! ## JavaScript values -/

deriving instance DecidableEq for Except

/-- An `Error` object, as far as the code looks at it. -/
structure JSError where
  name : String
  message : String
deriving DecidableEq, Repr

/-- The conversion `String(e)` of an error object (`Error.prototype.toString`). -/
def JSError.render (e : JSError) : String :=
  if e.name = "" then e.message
  else if e.message = "" then e.name
  else e.name ++ ": " ++ e.message

/-- How a promise ends: resolved with a value, rejected with an error, or
never settled. -/
inductive Settled (α : Type) where
  | ok (a : α)
  | error (e : JSError)
  | pending
deriving DecidableEq, Repr

/-- The object built by `new Error(msg)`. -/
def newError (msg : String) : JSError := { name := "Error", message := msg }

/-- Truthiness of a value that is a string or `undefined`. -/
def truthyStr : Option String → Bool
  | some s => s != ""
  | none => false

/-- The expression `x || d` for a value `x` that is a string or `undefined`. -/
def orStr (x : Option String) (d : String) : String :=
  match x with
  | some s => if s = "" then d else s
  | none => d

/-- The expression `x || d` for a value `x` that is an integral number or `undefined`. -/
def orNum (x : Option Int) (d : Int) : Int :=
  match x with
  | some n => if n = 0 then d else n
  | none => d

/-- The conversion `String(n)` of an integral number, in decimal (the form
JavaScript uses for integers below 10^21 in magnitude). -/
def jsString (n : Int) : String := toString n

/-- The method `Array.prototype.join` on an array of strings. -/
def joinWith (sep : String) : List String → String
  | [] => ""
  | [x] => x
  | x :: y :: rest => x ++ sep ++ joinWith sep (y :: rest)

/-- The method `String.prototype.includes`, on character lists. -/
def includesChars (s sub : List Char) : Bool :=
  s.tails.any (fun t => sub.isPrefixOf t)

/-- The method `String.prototype.includes`. -/
def includes (s sub : String) : Bool := includesChars s.data sub.data

/-- White space skipped by `parseInt`: the white space and line terminator
code points of the language. -/
def isWhite (c : Char) : Bool :=
  c.toNat = 9 || c.toNat = 10 || c.toNat = 11 || c.toNat = 12 || c.toNat = 13 ||
  c.toNat = 32 || c.toNat = 160 || c.toNat = 5760 ||
  (decide (8192 ≤ c.toNat) && decide (c.toNat ≤ 8202)) ||
  c.toNat = 8232 || c.toNat = 8233 || c.toNat = 8239 || c.toNat = 8287 ||
  c.toNat = 12288 || c.toNat = 65279

/-- The value of a run of decimal digits. -/
def digitsValue (ds : List Char) : Nat :=
  ds.foldl (fun acc c => acc * 10 + (c.toNat - 48)) 0

/-- The call `parseInt(s, 10)`; `none` is `NaN`. -/
def parseInt10 (s : String) : Option Int :=
  let cs := s.data.dropWhile isWhite
  let signed : Bool × List Char :=
    match cs with
    | '-' :: r => (true, r)
    | '+' :: r => (false, r)
    | _ => (false, cs)
  let ds := signed.2.takeWhile Char.isDigit
  if ds.isEmpty then none
  else some (if signed.1 then - (digitsValue ds : Int) else (digitsValue ds : Int))

/-! ## Regular expressions of the source -/

/-- The pattern `\.jar$` with flag `i`, tried at one start position. -/
def matchJarAt : List Char → Bool
  | [d, j, a, r] =>
    d = '.' && (j = 'j' || j = 'J') && (a = 'a' || a = 'A') && (r = 'r' || r = 'R')
  | _ => false

/-- The test `/\.jar$/i.test(name)`: some start position matches. -/
def testJar (name : String) : Bool := name.data.tails.any matchJarAt

/-- The class `[\d._-]`. -/
def isVersionChar (c : Char) : Bool :=
  c.isDigit || c = '.' || c = '_' || c = '-'

/-- The pattern `v[\d._-]+` with flag `i`, tried at one start position (greedy). -/
def matchVersionAt : List Char → Option (List Char)
  | [] => none
  | c :: rest =>
    if c = 'v' ∨ c = 'V' then
      match rest.takeWhile isVersionChar with
      | [] => none
      | run => some (c :: run)
    else none

/-- The call `filename.match(/v[\d._-]+/i)`: the match at the leftmost start position. -/
def matchVersion : List Char → Option (List Char)
  | [] => none
  | c :: rest =>
    match matchVersionAt (c :: rest) with
    | some m => some m
    | none => matchVersion rest

/-- The call `url.split('/')`, on character lists. -/
def splitSlash : List Char → List (List Char)
  | [] => [[]]
  | c :: cs =>
    if c = '/' then [] :: splitSlash cs
    else
      match splitSlash cs with
      | seg :: rest => (c :: seg) :: rest
      | [] => [[c]]

/-- The expression `url.split('/').pop()`. -/
def lastSegment (url : String) : String :=
  String.mk ((splitSlash url.data).getLastD [])

/-! ## Data model -/

/-- One entry of `assets` in the release metadata. -/
structure Asset where
  name : String
  browser_download_url : String
deriving DecidableEq, Repr

/-- The release metadata as parsed by `fetchJSON`; either key may be missing. -/
structure Release where
  tag_name : Option String
  assets : Option (List Asset)
deriving DecidableEq, Repr

/-- The value returned by `getLatestRelease`. -/
structure ReleaseDescriptor where
  tag : String
  url : String
  name : String
deriving DecidableEq, Repr

/-- The record `{ path, version }` returned by `ensureJar`. -/
structure ArtifactRecord where
  path : String
  version : String
deriving DecidableEq, Repr

/-- An HTTP response handed to the callback of `https.get`: status, the two
headers the code reads, the lengths of the body chunks in arrival order, and
the `error` event that ends the body stream, if one does (`none`: the body
ends normally). -/
structure Response where
  statusCode : Nat
  location : Option String
  contentLength : Option String
  chunks : List Nat
  bodyError : Option JSError
deriving DecidableEq, Repr

/-- Outcome of `spawn(java, ['-version'])`: an `error` event, or the chunks
written to the error stream before `close`. -/
inductive Probe where
  | error
  | closed (stderr : List String)
deriving DecidableEq, Repr

/-- How an extraction tool ended: an `error` event or an `exit` event with its code. -/
inductive ToolExit where
  | error (e : JSError)
  | exit (code : Option Int)
deriving DecidableEq, Repr

/-- Outcome of running an extraction tool: how it ended and the paths it created. -/
structure Extraction where
  result : ToolExit
  created : List String
deriving DecidableEq, Repr

/-- The argument of the `launch-bbmp` handler. -/
structure LaunchOptions where
  server : Option String
  port : Option Int
  rport : Option Int
  devmode : Bool
  javaPath : Option String
deriving DecidableEq, Repr

/-- The child process held in `bbmpProc`. -/
structure Proc where
  cmd : String
  args : List String
  cwd : String
deriving DecidableEq, Repr

/-- A message sent to the renderer with `webContents.send`. -/
inductive Event where
  | downloadProgress (p : ℚ)
  | javaProgress (p : ℚ)
  | bbmpLog (s : String)
  | bbmpExit (code : Option Int)
deriving DecidableEq, Repr

/-- A request the main process makes of its surroundings. -/
inductive Action where
  | fetchJSON (url : String)
  | httpsGet (url : String)
  | createWriteStream (dest : String)
  | spawn (cmd : String) (args : List String)
  | kill (signal : String)
deriving DecidableEq, Repr

/-- What becomes of a write stream: it takes the whole body and finishes, it
cannot be opened, or it is opened and a later write fails. -/
inductive WriteFate where
  | completes
  | failsToOpen
  | failsLater
deriving DecidableEq, Repr

/-- The surroundings of the main process. -/
structure Env where
  /-- The path `electronApp.getPath('userData')`. -/
  userData : String
  /-- The value `process.platform`. -/
  platform : String
  /-- The value `process.arch`. -/
  arch : String
  /-- The function `join` of `node:path`, on two segments. -/
  join : String → String → String
  /-- Whether a path is the given directory or lies below it. -/
  inside : String → String → Bool
  /-- The JSON document served at a URL, or the failure of the request or of the parse. -/
  fetchJSON : String → Except JSError Release
  /-- The response to an `https.get`, or the `error` event of the request. -/
  httpsGet : String → Except JSError Response
  /-- What becomes of the stream that `createWriteStream` makes for a path. -/
  writeStream : String → WriteFate
  /-- The outcome of asking a Java command for its version. -/
  javaVersion : String → Probe
  /-- The outcome of running an extraction tool with its arguments. -/
  extract : String → List String → Extraction

/-- The mutable state: the two module-level variables, the filesystem (the
paths that exist), the messages sent to the renderer and the requests made. -/
structure World where
  mainWindow : Bool
  bbmpProc : Option Proc
  files : List String
  sent : List Event
  trace : List Action
deriving DecidableEq, Repr

/-- A progress callback. -/
abbrev Progress := ℚ → World → World

/-! ## World primitives -/

/-- The call `mainWindow?.webContents.send(...)`. -/
def send (ev : Event) (w : World) : World :=
  if w.mainWindow then { w with sent := w.sent ++ [ev] } else w

/-- Records a request in the trace. -/
def logAction (a : Action) (w : World) : World :=
  { w with trace := w.trace ++ [a] }

/-- The call `existsSync(p)`. -/
def existsSync (p : String) (w : World) : Bool := w.files.contains p

/-- Makes a path exist (`fs.mkdir` with `recursive`, `createWriteStream`). -/
def touch (p : String) (w : World) : World :=
  if w.files.contains p then w else { w with files := w.files ++ [p] }

/-- The call `fs.rm(dir, { recursive: true, force: true })`. -/
def rmRecursive (env : Env) (dir : String) (w : World) : World :=
  { w with files := w.files.filter (fun p => !env.inside dir p) }

/-- The callback `p => mainWindow?.webContents.send('download-progress', p)`. -/
def downloadProgress : Progress := fun p w => send (Event.downloadProgress p) w

/-- The callback `p => mainWindow?.webContents.send('java-progress', p)`. -/
def javaProgress : Progress := fun p w => send (Event.javaProgress p) w

/-! ## Paths -/

/-- The function `getUserDir`. -/
def getUserDir (env : Env) : String := env.userData

/-- The function `jarPath`. -/
def jarPath (env : Env) (versionTag : String) : String :=
  env.join (getUserDir env) ("BlueBerryMinecraftProxy-" ++ versionTag ++ ".jar")

/-! ## Release resolver -/

/-- The endpoint queried by `getLatestRelease`. -/
def releaseApi : String :=
  "https://api.github.com/repos/BlueBerryCodingGroup/BBMP/releases/latest"

/-- The start of the message thrown when no asset is a jar. -/
def noJarText : String := "No jar asset found in latest release. Assets: "

/-- The function `getLatestRelease`. -/
def getLatestRelease (env : Env) (w : World) : Except JSError ReleaseDescriptor × World :=
  let w1 := logAction (Action.fetchJSON releaseApi) w
  match env.fetchJSON releaseApi with
  | .error e => (.error e, w1)
  | .ok json =>
    let assets := json.assets.getD []
    match assets.find? (fun a => testJar a.name) with
    | none =>
      let names := joinWith ", " (assets.map (fun a => a.name))
      (.error (newError (noJarText ++ names)), w1)
    | some asset =>
      (.ok { tag := orStr json.tag_name "latest", url := asset.browser_download_url,
             name := asset.name }, w1)

/-! ## Transport -/

/-- The redirect test of `download`: a 3xx status and a truthy `location` header. -/
def isRedirect (res : Response) : Bool :=
  decide (300 ≤ res.statusCode) && decide (res.statusCode < 400) && truthyStr res.location

/-- The value `parseInt(res.headers['content-length'] || '0', 10)`; `none` is `NaN`. -/
def totalOf (res : Response) : Option Int :=
  parseInt10 (orStr res.contentLength "0")

/-- The `data` listener of `download`: adds the chunk length to `done` and, when
a callback was passed and `total` is truthy, reports `done / total`. -/
def onData (onProgress : Option Progress) (total : Option Int)
    (st : Nat × World) (len : Nat) : Nat × World :=
  let done := st.1 + len
  match onProgress, total with
  | some cb, some t =>
    if t = 0 then (done, st.2) else (done, cb ((done : ℚ) / (t : ℚ)) st.2)
  | _, _ => (done, st.2)

/-- The world once `createWriteStream(dest)` was called: the file exists unless
the path cannot be opened. -/
def openStream (env : Env) (dest : String) (w : World) : World :=
  if env.writeStream dest = .failsToOpen then logAction (Action.createWriteStream dest) w
  else touch dest (logAction (Action.createWriteStream dest) w)

/-- How the promise of `download` ends on a 200 response: `res.on('error',
reject)` rejects when the body stream fails; otherwise the `finish` event of
the file resolves with `dest`. A file stream that fails emits an error that
nothing listens to and never finishes, so the promise stays unsettled. -/
def bodyOutcome (env : Env) (res : Response) (dest : String) : Settled String :=
  match res.bodyError with
  | some e => .error e
  | none => if env.writeStream dest = .completes then .ok dest else .pending

/-- The 200 branch of `download`: the write stream is created, the `data`
listener sees every chunk, and the promise ends as `bodyOutcome` says. -/
def receiveBody (env : Env) (onProgress : Option Progress) (res : Response) (dest : String)
    (w : World) : Settled String × World :=
  (bodyOutcome env res dest,
   (res.chunks.foldl (onData onProgress (totalOf res)) (0, openStream env dest w)).2)

/-- The function `download`. The fuel bounds the number of requests; `none`
means the redirects were still being followed when it ran out. -/
def download (env : Env) : Nat → String → String → Option Progress → World →
    Option (Settled String × World)
  | 0, _, _, _, _ => none
  | fuel + 1, url, dest, onProgress, w =>
    let w1 := logAction (Action.httpsGet url) (touch (env.join dest "..") w)
    match env.httpsGet url with
    | .error e => some (.error e, w1)
    | .ok res =>
      if isRedirect res then
        download env fuel (res.location.getD "") dest onProgress w1
      else if res.statusCode ≠ 200 then
        some (.error (newError ("HTTP " ++ toString res.statusCode)), w1)
      else
        some (receiveBody env onProgress res dest w1)

/-! ## Artifact store -/

/-- The function `ensureJar`. -/
def ensureJar (env : Env) (fuel : Nat) (w : World) :
    Option (Settled ArtifactRecord × World) :=
  match getLatestRelease env w with
  | (.error e, w1) => some (.error e, w1)
  | (.ok latest, w1) =>
    let p := jarPath env latest.tag
    if existsSync p w1 then some (.ok { path := p, version := latest.tag }, w1)
    else
      match download env fuel latest.url p (some downloadProgress) w1 with
      | none => none
      | some (.error e, w2) => some (.error e, w2)
      | some (.ok _, w2) => some (.ok { path := p, version := latest.tag }, w2)
      | some (.pending, w2) => some (.pending, w2)

/-- The reply of the two download handlers; `pending`: the handler never replies. -/
inductive DownloadReply where
  | error (msg : String)
  | latest (path version : String)
  | custom (path version name : String)
  | pending
deriving DecidableEq, Repr

/-- The handler `download-latest`. -/
def downloadLatest (env : Env) (fuel : Nat) (w : World) : Option (DownloadReply × World) :=
  match ensureJar env fuel w with
  | none => none
  | some (.error e, w1) => some (.error e.render, w1)
  | some (.ok r, w1) => some (.latest r.path r.version, w1)
  | some (.pending, w1) => some (.pending, w1)

/-- The expression `url.split('/').pop() || 'bbmp.jar'`. -/
def filenameOf (url : String) : String :=
  if lastSegment url = "" then "bbmp.jar" else lastSegment url

/-- The expression `(filename.match(/v[\d._-]+/i) || [])[0] || 'custom'`. -/
def versionGuess (filename : String) : String :=
  match matchVersion filename.data with
  | some m => if String.mk m = "" then "custom" else String.mk m
  | none => "custom"

/-- The handler `download-jar-url`. -/
def downloadJarUrl (env : Env) (fuel : Nat) (url : String) (w : World) :
    Option (DownloadReply × World) :=
  let filename := filenameOf url
  let dest := env.join (getUserDir env) filename
  match download env fuel url dest (some downloadProgress) w with
  | none => none
  | some (.error e, w1) => some (.error e.render, w1)
  | some (.ok _, w1) => some (.custom dest (versionGuess filename) filename, w1)
  | some (.pending, w1) => some (.pending, w1)

/-! ## Runtime provisioner -/

/-- The function `whichJavaCmd`. -/
def whichJavaCmd (env : Env) : String :=
  if env.platform = "win32" then "java.exe" else "java"

/-- The function `checkJava`; the result is the field `ok`. -/
def checkJava (env : Env) (w : World) : Bool × World :=
  let w1 := logAction (Action.spawn (whichJavaCmd env) ["-version"]) w
  match env.javaVersion (whichJavaCmd env) with
  | .error => (false, w1)
  | .closed stderr => (stderr.any (fun d => includes d "version"), w1)

/-- The record returned by `adoptiumBinaryInfo`. -/
structure BinaryInfo where
  url : String
  ext : String
deriving DecidableEq, Repr

/-- The function `adoptiumBinaryInfo`. -/
def adoptiumBinaryInfo (env : Env) : BinaryInfo :=
  let base := "https://api.adoptium.net/v3/binary/latest/17/ga"
  if env.platform = "win32" then
    { url := base ++ "/windows/" ++ env.arch ++ "/jdk/hotspot/normal/eclipse?project=jdk",
      ext := ".zip" }
  else if env.platform = "darwin" then
    { url := base ++ "/mac/" ++ env.arch ++ "/jdk/hotspot/normal/eclipse?project=jdk",
      ext := ".tar.gz" }
  else
    { url := base ++ "/linux/" ++ env.arch ++ "/jdk/hotspot/normal/eclipse?project=jdk",
      ext := ".tar.gz" }

/-- The array `candidates` of `downloadJava`. -/
def candidates : List String :=
  ["bin/java", "bin/java.exe", "jdk-17/bin/java", "jdk-17/bin/java.exe"]

/-- The loop over `candidates` that ends `downloadJava`; `none` is `null`. -/
def findJava (env : Env) (jreDir : String) (w : World) : List String → Option String
  | [] => none
  | rel :: rest =>
    if existsSync (env.join jreDir rel) w then some (env.join jreDir rel)
    else findJava env jreDir w rest

/-- The extraction step of `downloadJava`: the tool is spawned, what it
unpacked exists afterwards, and anything but exit code 0 rejects. -/
def extractArchive (env : Env) (ext tmp jreDir : String) (w : World) :
    Except JSError Unit × World :=
  let cmd := if ext = ".zip" then "powershell.exe" else "tar"
  let args :=
    if ext = ".zip" then
      ["-NoProfile", "-Command",
       "Expand-Archive -Path \"" ++ tmp ++ "\" -DestinationPath \"" ++ jreDir ++ "\" -Force"]
    else ["-xzf", tmp, "-C", jreDir]
  let failed := if ext = ".zip" then "Expand-Archive failed" else "tar extract failed"
  let out := env.extract cmd args
  let w1 := out.created.foldl (fun acc p => touch p acc) (logAction (Action.spawn cmd args) w)
  match out.result with
  | .error e => (.error e, w1)
  | .exit code => if code = some 0 then (.ok (), w1) else (.error (newError failed), w1)

/-- The function `downloadJava`; the result is the field `javaPath`. -/
def downloadJava (env : Env) (fuel : Nat) (onProgress : Option Progress) (w : World) :
    Option (Settled (Option String) × World) :=
  let info := adoptiumBinaryInfo env
  let tmp := env.join (getUserDir env) ("temurin17" ++ info.ext)
  match download env fuel info.url tmp onProgress w with
  | none => none
  | some (.error e, w1) => some (.error e, w1)
  | some (.ok _, w1) =>
    let jreDir := env.join (getUserDir env) "jre17"
    let w2 := touch jreDir (rmRecursive env jreDir w1)
    match extractArchive env info.ext tmp jreDir w2 with
    | (.error e, w3) => some (.error e, w3)
    | (.ok _, w3) => some (.ok (findJava env jreDir w3 candidates), w3)
  | some (.pending, w1) => some (.pending, w1)

/-- The reply of the handler `install-java`; `pending`: the handler never replies. -/
inductive InstallReply where
  | error (msg : String)
  | done (ok : Bool) (javaPath : Option String)
  | pending
deriving DecidableEq, Repr

/-- The handler `install-java`. -/
def installJava (env : Env) (fuel : Nat) (w : World) : Option (InstallReply × World) :=
  match downloadJava env fuel (some javaProgress) w with
  | none => none
  | some (.error e, w1) => some (.error e.render, w1)
  | some (.ok res, w1) => some (.done (truthyStr res) res, w1)
  | some (.pending, w1) => some (.pending, w1)

/-! ## Process supervisor -/

/-- The reply of the handler `launch-bbmp`; `pending`: the handler never replies. -/
inductive LaunchReply where
  | error (msg : String)
  | ok (version cmd : String)
  | pending
deriving DecidableEq, Repr

/-- The Java selection of `launch-bbmp`: the caller's path or the bare
command, then detection, then installation when detection failed and the caller
gave no path. -/
def chooseJava (env : Env) (fuel : Nat) (args : LaunchOptions) (w : World) :
    Option (Settled String × World) :=
  let java := orStr args.javaPath (whichJavaCmd env)
  match checkJava env w with
  | (ok, w1) =>
    if !ok && !truthyStr args.javaPath then
      match downloadJava env fuel (some javaProgress) w1 with
      | none => none
      | some (.error e, w2) => some (.error e, w2)
      | some (.ok res, w2) => some (.ok (orStr res java), w2)
      | some (.pending, w2) => some (.pending, w2)
    else some (.ok java, w1)

/-- The array `launchArgs` of `launch-bbmp`. -/
def buildLaunchArgs (args : LaunchOptions) (artifactPath : String) : List String :=
  let launchArgs :=
    ["-jar", artifactPath,
     "-port", jsString (orNum args.port 25565),
     "-ip", orStr args.server "play.hypixel.net",
     "-rport", jsString (orNum args.rport 25565)]
  if args.devmode then launchArgs ++ ["-devmode", "true"] else launchArgs

/-- The end of `launch-bbmp`: the child is spawned in the user directory,
kept in `bbmpProc`, and the reply is built. -/
def spawnChild (env : Env) (java : String) (ensure : ArtifactRecord) (args : LaunchOptions)
    (w : World) : LaunchReply × World :=
  let launchArgs := buildLaunchArgs args ensure.path
  let w1 := logAction (Action.spawn java launchArgs) w
  (.ok ensure.version (joinWith " " (java :: launchArgs)),
   { w1 with bbmpProc := some { cmd := java, args := launchArgs, cwd := getUserDir env } })

/-- The handler `launch-bbmp`. -/
def launch (env : Env) (fuel : Nat) (args : LaunchOptions) (w : World) :
    Option (LaunchReply × World) :=
  if w.bbmpProc.isSome then some (.error "Already running", w)
  else
    match ensureJar env fuel w with
    | none => none
    | some (.error e, w1) => some (.error e.render, w1)
    | some (.ok ensure, w1) =>
      match chooseJava env fuel args w1 with
      | none => none
      | some (.error e, w2) => some (.error e.render, w2)
      | some (.ok java, w2) => some (spawnChild env java ensure args w2)
      | some (.pending, w2) => some (.pending, w2)
    | some (.pending, w1) => some (.pending, w1)

/-- The handler `stop-bbmp`; the reply is always `{ ok: true }`. -/
def stop (w : World) : World :=
  if w.bbmpProc.isSome then logAction (Action.kill "SIGTERM") w else w

/-- The handler `is-running`; the result is the field `running`. -/
def isRunning (w : World) : Bool := w.bbmpProc.isSome

/-- The `close` listener of the child. -/
def onClose (code : Option Int) (w : World) : World :=
  { send (Event.bbmpExit code) w with bbmpProc := none }

/-- The `data` listeners of the child's output and error streams. -/
def onChildData (d : String) (w : World) : World := send (Event.bbmpLog d) w

/-- The function `createWindow`, as far as the module state goes. -/
def createWindow (w : World) : World := { w with mainWindow := true }

/-! ## The session state machine -/

/-- What can happen to the main process: the window is created, the renderer
invokes a handler, or the child emits an event. -/
inductive Input where
  | createWindow
  | downloadLatest (fuel : Nat)
  | downloadJarUrl (fuel : Nat) (url : String)
  | checkJava
  | installJava (fuel : Nat)
  | launch (fuel : Nat) (args : LaunchOptions)
  | stop
  | isRunning
  | childData (d : String)
  | childClose (code : Option Int)

/-- Whether an input can occur: handlers are invoked by the renderer, which
exists once the window was created; child events need a child. -/
def enabled (w : World) : Input → Bool
  | .createWindow => true
  | .childData _ => w.bbmpProc.isSome
  | .childClose _ => w.bbmpProc.isSome
  | _ => w.mainWindow

/-- The world after an input; `none` when a download never stops redirecting. -/
def step (env : Env) (w : World) : Input → Option World
  | .createWindow => some (createWindow w)
  | .downloadLatest fuel => (downloadLatest env fuel w).map Prod.snd
  | .downloadJarUrl fuel url => (downloadJarUrl env fuel url w).map Prod.snd
  | .checkJava => some (checkJava env w).2
  | .installJava fuel => (installJava env fuel w).map Prod.snd
  | .launch fuel args => (launch env fuel args w).map Prod.snd
  | .stop => some (stop w)
  | .isRunning => some w
  | .childData d => some (onChildData d w)
  | .childClose code => some (onClose code w)

/-- The world at start-up: no window, no child, nothing sent or requested. -/
def initial (files : List String) : World :=
  { mainWindow := false, bbmpProc := none, files := files, sent := [], trace := [] }

/-- The worlds the main process can be in. -/
inductive Reachable (env : Env) : World → Prop where
  | init (files : List String) : Reachable env (initial files)
  | next (w w2 : World) (i : Input) : Reachable env w → enabled w i = true →
      step env w i = some w2 → Reachable env w2

/-! ## Specification vocabulary and sample inputs -/

/-- The names occur in the message one after the other, in the listed order. -/
def ListedInOrder : List String → List Char → Prop
  | [], _ => True
  | n :: ns, msg => ∃ pre post, msg = pre ++ n.data ++ post ∧ ListedInOrder ns post

/-- A match of `v[\d._-]+` (flag `i`) starts at the head of the list: a `v` or
`V` followed by at least one character of the class. -/
def StartsVersion (t : List Char) : Prop :=
  ∃ c x rest, t = c :: x :: rest ∧ (c = 'v' ∨ c = 'V') ∧ isVersionChar x = true

/-- The final response of a chain of exactly `n` redirect responses starting at
`url`: each of the first `n` requests is answered by a redirect and the next one
by a response that is not a redirect. -/
def redirectChain (env : Env) : Nat → String → Option Response
  | 0, url =>
    match env.httpsGet url with
    | .ok res => if isRedirect res then none else some res
    | .error _ => none
  | n + 1, url =>
    match env.httpsGet url with
    | .ok res => if isRedirect res then redirectChain env n (res.location.getD "") else none
    | .error _ => none

/-- The URLs requested along a chain of `n` redirects starting at `url`. -/
def visited (env : Env) : Nat → String → List String
  | 0, url => [url]
  | n + 1, url =>
    match env.httpsGet url with
    | .ok res => url :: visited env n (res.location.getD "")
    | .error _ => [url]

/-- The world after the listed URLs were requested for one destination: the
destination directory exists and the requests are in the trace. -/
def afterRequests (env : Env) (dest : String) (urls : List String) (w : World) : World :=
  urls.foldl (fun acc u => logAction (Action.httpsGet u) (touch (env.join dest "..") acc)) w

/-- The values of `done` after each chunk. -/
def runningTotals (done : Nat) : List Nat → List Nat
  | [] => []
  | len :: rest => (done + len) :: runningTotals (done + len) rest

/-- The fractions `done / total` after each chunk. -/
def fractions (total : Int) (chunks : List Nat) : List ℚ :=
  (runningTotals 0 chunks).map (fun (done : Nat) => (done : ℚ) / (total : ℚ))

/-- The increments of a progress sequence that starts from 0. -/
def deltas (prev : ℚ) : List ℚ → List ℚ
  | [] => []
  | q :: rest => (q - prev) :: deltas q rest

/-- The number of write streams created for response bodies. -/
def bodyCount (w : World) : Nat :=
  w.trace.countP (fun a => match a with
    | .createWriteStream _ => true
    | _ => false)

/-- The number of download requests made. -/
def requestCount (w : World) : Nat :=
  w.trace.countP (fun a => match a with
    | .httpsGet _ => true
    | _ => false)

/-- The second world has the window and the child of the first, and its trace
extends the trace of the first. -/
def Frame (w w2 : World) : Prop :=
  w2.mainWindow = w.mainWindow ∧ w2.bbmpProc = w.bbmpProc ∧ w.trace <+: w2.trace

/-- The second world differs from the first in the messages sent at most. -/
def Silent (w w2 : World) : Prop :=
  w2.mainWindow = w.mainWindow ∧ w2.bbmpProc = w.bbmpProc ∧ w2.files = w.files ∧
    w2.trace = w.trace

/-- A progress callback that only sends to the renderer. -/
def Quiet (cb : Progress) : Prop := ∀ q w, Silent w (cb q w)

/-- The function `dirname` of the sample machine. -/
def sampleDirname (p : List Char) : List Char :=
  ((p.reverse.dropWhile (fun c => c != '/')).drop 1).reverse

/-- The function `join` of the sample machine. -/
def sampleJoin (a b : String) : String :=
  if b = ".." then String.mk (sampleDirname a.data) else a ++ "/" ++ b

/-- A 200 response without a content-length whose body ends normally. -/
def plainBody (chunks : List Nat) : Response :=
  { statusCode := 200, location := none, contentLength := none, chunks := chunks,
    bodyError := none }

/-- A 302 response that names the next URL. -/
def movedTo (url : String) : Response :=
  { statusCode := 302, location := some url, contentLength := none, chunks := [],
    bodyError := none }

/-- A 200 response that announces ten bytes and delivers them as 4 and 6. -/
def tenBytes : Response :=
  { statusCode := 200, location := none, contentLength := some "10", chunks := [4, 6],
    bodyError := none }

/-- A 200 response whose body stream fails after the first three bytes. -/
def brokenBody : Response :=
  { statusCode := 200, location := none, contentLength := none, chunks := [3],
    bodyError := some (newError "aborted") }

/-- A Linux machine whose release feed lists one text file and one jar, whose
jar URL redirects once, which has no Java, and whose JDK archive unpacks into
the nested layout. -/
def sampleEnv : Env :=
  { userData := "/u", platform := "linux", arch := "x64",
    join := sampleJoin,
    inside := fun d p => d.data.isPrefixOf p.data,
    fetchJSON := fun _ =>
      .ok { tag_name := some "v2.1",
            assets := some [{ name := "notes.txt", browser_download_url := "https://x/notes.txt" },
                            { name := "app-v2.1.JAR",
                              browser_download_url := "https://x/app-v2.1.jar" }] },
    httpsGet := fun u =>
      if u = "https://x/app-v2.1.jar" then .ok (movedTo "https://y/a") else .ok (plainBody [3, 4]),
    writeStream := fun _ => .completes,
    javaVersion := fun _ => .error,
    extract := fun _ _ => { result := .exit (some 0), created := ["/u/jre17/jdk-17/bin/java"] } }

/-- A machine whose connection breaks while the body of a 200 response arrives. -/
def brokenEnv : Env :=
  { sampleEnv with httpsGet := fun _ => .ok brokenBody }

/-- A machine that serves ten bytes in two chunks and announces the length. -/
def progressEnv : Env :=
  { sampleEnv with httpsGet := fun _ => .ok tenBytes }

/-- The sample machine with another release feed. -/
def withRelease (json : Release) : Env :=
  { sampleEnv with fetchJSON := fun _ => .ok json }

/-- The world once the window exists, with an empty user directory. -/
def ready : World := createWindow (initial [])

/-- The world after the sample machine fetched the latest jar for the first time. -/
def sampleDownloaded : World :=
  { mainWindow := true, bbmpProc := none,
    files := ["/u", "/u/BlueBerryMinecraftProxy-v2.1.jar"],
    sent := [],
    trace := [Action.fetchJSON releaseApi, Action.httpsGet "https://x/app-v2.1.jar",
              Action.httpsGet "https://y/a",
              Action.createWriteStream "/u/BlueBerryMinecraftProxy-v2.1.jar"] }

/-- The world after the sample machine downloaded the JDK archive. -/
def sampleArchived : World :=
  { mainWindow := true, bbmpProc := none, files := ["/u", "/u/temurin17.tar.gz"], sent := [],
    trace := [Action.httpsGet (adoptiumBinaryInfo sampleEnv).url,
              Action.createWriteStream "/u/temurin17.tar.gz"] }

/-- The world after the sample machine unpacked the JDK archive. -/
def sampleInstalled : World :=
  { mainWindow := true, bbmpProc := none,
    files := ["/u", "/u/temurin17.tar.gz", "/u/jre17", "/u/jre17/jdk-17/bin/java"],
    sent := [],
    trace := [Action.httpsGet (adoptiumBinaryInfo sampleEnv).url,
              Action.createWriteStream "/u/temurin17.tar.gz",
              Action.spawn "tar" ["-xzf", "/u/temurin17.tar.gz", "-C", "/u/jre17"]] }

/-- The world after the sample machine launched with every option supplied: a
child is running. -/
def busy : World :=
  { mainWindow := true,
    bbmpProc := some
      { cmd := "/opt/jdk/bin/java",
        args := ["-jar", "/u/BlueBerryMinecraftProxy-v2.1.jar", "-port", "25570", "-ip",
                 "mc.example.org", "-rport", "25571", "-devmode", "true"],
        cwd := "/u" },
    files := ["/u", "/u/BlueBerryMinecraftProxy-v2.1.jar"],
    sent := [],
    trace := [Action.fetchJSON releaseApi, Action.httpsGet "https://x/app-v2.1.jar",
              Action.httpsGet "https://y/a",
              Action.createWriteStream "/u/BlueBerryMinecraftProxy-v2.1.jar",
              Action.spawn "java" ["-version"],
              Action.spawn "/opt/jdk/bin/java"
                ["-jar", "/u/BlueBerryMinecraftProxy-v2.1.jar", "-port", "25570", "-ip",
                 "mc.example.org", "-rport", "25571", "-devmode", "true"]] }

/-- Release metadata whose tag is present but empty. -/
def emptyTagRelease : Release :=
  { tag_name := some "",
    assets := some [{ name := "a.jar", browser_download_url := "https://x/a.jar" }] }

/-- Release metadata without a jar. -/
def noJarRelease : Release :=
  { tag_name := none,
    assets := some [{ name := "a.zip", browser_download_url := "https://x/a.zip" },
                    { name := "b.jar.sha1", browser_download_url := "https://x/b" }] }

/-- Launch options that supply a zero port, an empty server name and a zero remote port. -/
def zeroOptions : LaunchOptions :=
  { server := some "", port := some 0, rport := some 0, devmode := false, javaPath := none }

/-- Launch options with every field supplied and truthy. -/
def fullOptions : LaunchOptions :=
  { server := some "mc.example.org", port := some 25570, rport := some 25571, devmode := true,
    javaPath := some "/opt/jdk/bin/java" }

/-- Launch options whose Java path is present but empty. -/
def emptyJavaPathOptions : LaunchOptions :=
  { server := none, port := none, rport := none, devmode := false, javaPath := some "" }

/-! ## Release resolver -/

theorem matchJarAt_iff (t : List Char) :
    matchJarAt t = true ↔
      ∃ d j a r, t = [d, j, a, r] ∧ d = '.' ∧ (j = 'j' ∨ j = 'J') ∧ (a = 'a' ∨ a = 'A') ∧
        (r = 'r' ∨ r = 'R') := by
  match t with
  | [] => simp [matchJarAt]
  | [_] => simp [matchJarAt]
  | [_, _] => simp [matchJarAt]
  | [_, _, _] => simp [matchJarAt]
  | [d, j, a, r] => simp [matchJarAt, and_assoc]
  | _ :: _ :: _ :: _ :: _ :: _ => simp [matchJarAt]

theorem testJar_iff (name : String) :
    testJar name = true ↔
      ∃ pre d j a r, name.data = pre ++ [d, j, a, r] ∧ d = '.' ∧ (j = 'j' ∨ j = 'J') ∧
        (a = 'a' ∨ a = 'A') ∧ (r = 'r' ∨ r = 'R') := by
  unfold testJar
  rw [List.any_eq_true]
  constructor
  · rintro ⟨t, ht, hm⟩
    rw [List.mem_tails] at ht
    obtain ⟨pre, hpre⟩ := ht
    obtain ⟨d, j, a, r, rfl, h⟩ := (matchJarAt_iff t).1 hm
    exact ⟨pre, d, j, a, r, hpre.symm, h⟩
  · rintro ⟨pre, d, j, a, r, hn, h⟩
    refine ⟨[d, j, a, r], ?_, (matchJarAt_iff _).2 ⟨d, j, a, r, rfl, h⟩⟩
    rw [List.mem_tails]
    exact ⟨pre, hn.symm⟩

theorem listedInOrder_joinWith (sep : String) (names : List String) (pre : List Char) :
    ListedInOrder names (pre ++ (joinWith sep names).data) := by
  induction names generalizing pre with
  | nil => trivial
  | cons n ns ih =>
    cases ns with
    | nil => exact ⟨pre, [], by simp [joinWith], trivial⟩
    | cons m ms =>
      refine ⟨pre, (sep ++ joinWith sep (m :: ms)).data, ?_, ?_⟩
      · simp [joinWith, String.data_append, List.append_assoc]
      · rw [String.data_append]
        exact ih sep.data

theorem find?_first {α : Type} (p : α → Bool) (pre : List α) (a : α) (post : List α)
    (hpre : ∀ b ∈ pre, p b = false) (ha : p a = true) :
    (pre ++ a :: post).find? p = some a := by
  induction pre with
  | nil => simp [ha]
  | cons b bs ih =>
    have hb : p b = false := hpre b (List.mem_cons_self _ _)
    simp only [List.cons_append, List.find?_cons, hb]
    exact ih (fun c hc => hpre c (List.mem_cons_of_mem _ hc))

/-- C1 (amended). For every release metadata value returned by the metadata
request, `getLatestRelease` selects the first asset in listed order whose name
ends with ".jar" compared case-insensitively and returns its download URL and
name; the tag is `tag_name` when that is present and non-empty and "latest" when
it is missing or empty. When no asset name matches (the list may be missing or
empty) it fails, the message is the fixed text followed by the asset names joined
with ", ", and so lists every asset name in listed order. -/
theorem getLatestRelease_selects_first_jar (env : Env) (w : World) (json : Release)
    (hfetch : env.fetchJSON releaseApi = .ok json) :
    (∀ pre a post, json.assets.getD [] = pre ++ a :: post →
        (∀ b ∈ pre, testJar b.name = false) → testJar a.name = true →
        ∃ d, (getLatestRelease env w).1 = .ok d ∧
          d.url = a.browser_download_url ∧ d.name = a.name ∧
          (∀ t, json.tag_name = some t → t ≠ "" → d.tag = t) ∧
          ((json.tag_name = none ∨ json.tag_name = some "") → d.tag = "latest")) ∧
    ((∀ a ∈ json.assets.getD [], testJar a.name = false) →
        ∃ e, (getLatestRelease env w).1 = .error e ∧
          e.message = noJarText ++ joinWith ", " ((json.assets.getD []).map (fun a => a.name)) ∧
          ListedInOrder ((json.assets.getD []).map (fun a => a.name)) e.message.data) ∧
    (∀ name : String, testJar name = true ↔
        ∃ pre d j a r, name.data = pre ++ [d, j, a, r] ∧ d = '.' ∧ (j = 'j' ∨ j = 'J') ∧
          (a = 'a' ∨ a = 'A') ∧ (r = 'r' ∨ r = 'R')) := by
  refine ⟨?_, ?_, testJar_iff⟩
  · intro pre a post hassets hpre ha
    have hfind : (json.assets.getD []).find? (fun a => testJar a.name) = some a := by
      rw [hassets]
      exact find?_first (fun a => testJar a.name) pre a post hpre ha
    refine ⟨{ tag := orStr json.tag_name "latest", url := a.browser_download_url,
              name := a.name }, ?_, rfl, rfl, ?_, ?_⟩
    · simp only [getLatestRelease, hfetch, hfind]
    · intro t ht hne
      simp [orStr, ht, hne]
    · rintro (h | h) <;> simp [orStr, h]
  · intro hnone
    have hfind : (json.assets.getD []).find? (fun a => testJar a.name) = none := by
      rw [List.find?_eq_none]
      intro x hx
      simp [hnone x hx]
    refine ⟨newError (noJarText ++ joinWith ", " ((json.assets.getD []).map (fun a => a.name))),
      ?_, rfl, ?_⟩
    · simp only [getLatestRelease, hfetch, hfind]
    · simp only [newError, String.data_append]
      exact listedInOrder_joinWith ", " _ _

/-- Witness for C1: the sample feed lists a text file before the jar. -/
theorem getLatestRelease_selects_first_jar_witness :
    (getLatestRelease sampleEnv ready).1 =
      .ok { tag := "v2.1", url := "https://x/app-v2.1.jar", name := "app-v2.1.JAR" } := by
  obtain ⟨d, hd, hu, hn, ht, _⟩ :=
    (getLatestRelease_selects_first_jar sampleEnv ready
      { tag_name := some "v2.1",
        assets := some [{ name := "notes.txt", browser_download_url := "https://x/notes.txt" },
                        { name := "app-v2.1.JAR",
                          browser_download_url := "https://x/app-v2.1.jar" }] } rfl).1
      [{ name := "notes.txt", browser_download_url := "https://x/notes.txt" }]
      { name := "app-v2.1.JAR", browser_download_url := "https://x/app-v2.1.jar" } [] rfl
      (by decide) (by decide)
  have htag := ht "v2.1" rfl (by decide)
  rw [hd]
  cases d
  simp only at hu hn htag
  rw [hu, hn, htag]

/-- Counterexample to C1 as stated: the metadata carries a `tag_name`, the empty
string, and a jar asset; the resolver returns the tag "latest", not the
`tag_name` that is present. -/
theorem getLatestRelease_empty_tag_counterexample :
    emptyTagRelease.tag_name = some "" ∧
    (getLatestRelease (withRelease emptyTagRelease) ready).1 =
      .ok { tag := "latest", url := "https://x/a.jar", name := "a.jar" } ∧
    ("latest" : String) ≠ "" := by
  decide

/-! ## Launch while a session is active -/

theorem launch_busy (env : Env) (fuel : Nat) (args : LaunchOptions) (w : World)
    (hactive : w.bbmpProc ≠ none) :
    launch env fuel args w = some (.error "Already running", w) := by
  unfold launch
  have : w.bbmpProc.isSome = true := by
    cases h : w.bbmpProc with
    | none => exact absurd h hactive
    | some p => rfl
  simp [this]

/-- C2. While a session is active (`bbmpProc` is non-null) the handler
`launch-bbmp` returns the error "Already running" and leaves the world as it
was, whatever the options and the fuel: the trace gains no metadata request, no
download, no Java probe, no installation and no spawn, and the session is the
same. -/
theorem launch_rejected_while_running (env : Env) (fuel : Nat) (args : LaunchOptions)
    (w : World) (hactive : w.bbmpProc ≠ none) :
    launch env fuel args w = some (.error "Already running", w) :=
  launch_busy env fuel args w hactive

/-- Witness for C2: a launch with no fuel at all is rejected in a busy world. -/
theorem launch_rejected_while_running_witness :
    busy.bbmpProc ≠ none ∧ launch sampleEnv 0 fullOptions busy = some (.error "Already running", busy) :=
  ⟨by decide, launch_rejected_while_running sampleEnv 0 fullOptions busy (by decide)⟩

/-! ## Launch: arguments and Java selection -/

theorem launch_idle (env : Env) (fuel : Nat) (args : LaunchOptions) (w w1 w2 : World)
    (e : ArtifactRecord) (java : String) (hidle : w.bbmpProc = none)
    (hjar : ensureJar env fuel w = some (.ok e, w1))
    (hjava : chooseJava env fuel args w1 = some (.ok java, w2)) :
    launch env fuel args w = some (spawnChild env java e args w2) := by
  simp [launch, hidle, hjar, hjava]

theorem launch_ok_inv (env : Env) (fuel : Nat) (args : LaunchOptions) (w w3 : World)
    (v c : String) (h : launch env fuel args w = some (.ok v c, w3)) :
    ∃ e java w1 w2, w.bbmpProc = none ∧ ensureJar env fuel w = some (.ok e, w1) ∧
      chooseJava env fuel args w1 = some (.ok java, w2) ∧
      spawnChild env java e args w2 = (.ok v c, w3) := by
  unfold launch at h
  split at h
  · simp at h
  · rename_i hidle
    have hnone : w.bbmpProc = none := by
      cases hp : w.bbmpProc with
      | none => rfl
      | some p => simp [hp] at hidle
    split at h
    · simp at h
    · simp at h
    · rename_i e w1 hjar
      split at h
      · simp at h
      · simp at h
      · rename_i java w2 hjava
        exact ⟨e, java, w1, w2, hnone, hjar, hjava, by simpa using h⟩
      · simp at h
    · simp at h

theorem spawnChild_proc (env : Env) (java : String) (e : ArtifactRecord) (args : LaunchOptions)
    (w : World) :
    (spawnChild env java e args w).2.bbmpProc =
      some { cmd := java, args := buildLaunchArgs args e.path, cwd := env.userData } := rfl

/-- C3 (amended). For every launch options value and artifact path the
argument list is `-jar <path> -port <port> -ip <server> -rport <rport>`,
followed by `-devmode true` exactly when devmode is requested (8 or 10
elements). `port` and `rport` are the supplied numbers in decimal when supplied
and non-zero, and 25565 when missing or zero; `server` is the supplied string
when non-empty and "play.hypixel.net" when missing or empty. Whenever
`launch-bbmp` starts a child, this list, built from the path `ensureJar`
returned, is the argument list of the child. -/
theorem launch_argument_list (args : LaunchOptions) (artifactPath : String) :
    (∃ port server rport,
      buildLaunchArgs args artifactPath =
        ["-jar", artifactPath, "-port", port, "-ip", server, "-rport", rport] ++
          (if args.devmode = true then ["-devmode", "true"] else []) ∧
      (∀ n, args.port = some n → n ≠ 0 → port = jsString n) ∧
      ((args.port = none ∨ args.port = some 0) → port = "25565") ∧
      (∀ s, args.server = some s → s ≠ "" → server = s) ∧
      ((args.server = none ∨ args.server = some "") → server = "play.hypixel.net") ∧
      (∀ n, args.rport = some n → n ≠ 0 → rport = jsString n) ∧
      ((args.rport = none ∨ args.rport = some 0) → rport = "25565")) ∧
    (buildLaunchArgs args artifactPath).length = (if args.devmode = true then 10 else 8) ∧
    (∀ env fuel w v c w3, launch env fuel args w = some (.ok v c, w3) →
      ∃ java e w1, ensureJar env fuel w = some (.ok e, w1) ∧
        w3.bbmpProc =
          some { cmd := java, args := buildLaunchArgs args e.path, cwd := env.userData }) := by
  refine ⟨⟨jsString (orNum args.port 25565), orStr args.server "play.hypixel.net",
    jsString (orNum args.rport 25565), ?_, ?_, ?_, ?_, ?_, ?_, ?_⟩, ?_, ?_⟩
  · unfold buildLaunchArgs
    split <;> simp
  · intro n hn hne
    simp [orNum, hn, hne]
  · rintro (h | h) <;> simp [orNum, h, jsString] <;> rfl
  · intro s hs hne
    simp [orStr, hs, hne]
  · rintro (h | h) <;> simp [orStr, h]
  · intro n hn hne
    simp [orNum, hn, hne]
  · rintro (h | h) <;> simp [orNum, h, jsString] <;> rfl
  · unfold buildLaunchArgs
    split <;> simp
  · intro env fuel w v c w3 h
    obtain ⟨e, java, w1, w2, _, hjar, _, hsp⟩ := launch_ok_inv env fuel args w w3 v c h
    refine ⟨java, e, w1, hjar, ?_⟩
    have := spawnChild_proc env java e args w2
    rw [hsp] at this
    exact this

/-- Witness for C3: the sample machine launched with every option supplied. -/
theorem launch_argument_list_witness :
    buildLaunchArgs fullOptions "/u/a.jar" =
      ["-jar", "/u/a.jar", "-port", "25570", "-ip", "mc.example.org", "-rport", "25571",
       "-devmode", "true"] := by
  obtain ⟨⟨port, server, rport, hl, hp, _, hs, _, hr, _⟩, _, _⟩ :=
    launch_argument_list fullOptions "/u/a.jar"
  rw [hl, hp 25570 rfl (by decide), hs "mc.example.org" rfl (by decide),
    hr 25571 rfl (by decide)]
  decide

/-- Counterexample to C3 as stated: the caller supplies port 0, the empty
server name and remote port 0; the list carries the defaults, not the supplied
values rendered as strings. -/
theorem launch_argument_list_counterexample :
    zeroOptions.port = some 0 ∧ zeroOptions.server = some "" ∧ zeroOptions.rport = some 0 ∧
    buildLaunchArgs zeroOptions "/u/a.jar" =
      ["-jar", "/u/a.jar", "-port", "25565", "-ip", "play.hypixel.net", "-rport", "25565"] ∧
    buildLaunchArgs zeroOptions "/u/a.jar" ≠
      ["-jar", "/u/a.jar", "-port", "0", "-ip", "", "-rport", "0"] := by
  decide

theorem checkJava_world (env : Env) (w : World) :
    (checkJava env w).2 = logAction (Action.spawn (whichJavaCmd env) ["-version"]) w := by
  unfold checkJava
  split <;> rfl

/-- C4 (amended). For every caller-supplied `javaPath` (or none), detection
result and installation result, the executable chosen by `launch-bbmp` is: the
caller-supplied path whenever it is a non-empty string (the only request made
is then the version probe, so installation is not attempted, whatever detection
reports); otherwise (no path, or the empty string) the bare command name when
detection succeeds (again only the probe is made); otherwise the installed
path when installation returns a non-empty one; otherwise the bare command
name, which is `java.exe` on Windows and `java` elsewhere. The chosen executable
is the command of the child that `launch-bbmp` starts. -/
theorem launch_java_selection (env : Env) (fuel : Nat) (args : LaunchOptions) (w : World) :
    (∀ p, args.javaPath = some p → p ≠ "" →
      chooseJava env fuel args w =
        some (.ok p, logAction (Action.spawn (whichJavaCmd env) ["-version"]) w)) ∧
    ((args.javaPath = none ∨ args.javaPath = some "") → (checkJava env w).1 = true →
      chooseJava env fuel args w =
        some (.ok (whichJavaCmd env),
          logAction (Action.spawn (whichJavaCmd env) ["-version"]) w)) ∧
    ((args.javaPath = none ∨ args.javaPath = some "") → (checkJava env w).1 = false →
      ∀ res w2, downloadJava env fuel (some javaProgress) (checkJava env w).2 = some (.ok res, w2) →
        (∀ p, res = some p → p ≠ "" → chooseJava env fuel args w = some (.ok p, w2)) ∧
        ((res = none ∨ res = some "") →
          chooseJava env fuel args w = some (.ok (whichJavaCmd env), w2))) ∧
    whichJavaCmd env = (if env.platform = "win32" then "java.exe" else "java") ∧
    (∀ w0 e java w2, w0.bbmpProc = none → ensureJar env fuel w0 = some (.ok e, w) →
      chooseJava env fuel args w = some (.ok java, w2) →
      ∃ reply w3, launch env fuel args w0 = some (reply, w3) ∧
        w3.bbmpProc =
          some { cmd := java, args := buildLaunchArgs args e.path, cwd := env.userData }) := by
  refine ⟨?_, ?_, ?_, rfl, ?_⟩
  · intro p hp hne
    rw [← checkJava_world]
    unfold chooseJava
    simp [hp, hne, truthyStr, orStr]
  · intro hnone hok
    rw [← checkJava_world]
    unfold chooseJava
    rcases hnone with h | h <;> simp [h, hok, orStr]
  · intro hnone hfail res w2 hdl
    have htr : truthyStr args.javaPath = false := by
      rcases hnone with h | h <;> simp [h, truthyStr]
    have hjava : orStr args.javaPath (whichJavaCmd env) = whichJavaCmd env := by
      rcases hnone with h | h <;> simp [h, orStr]
    have hcj : chooseJava env fuel args w = some (.ok (orStr res (whichJavaCmd env)), w2) := by
      unfold chooseJava
      simp [hfail, htr, hdl, hjava]
    constructor
    · intro p hp hne
      rw [hcj]
      simp [orStr, hp, hne]
    · rintro (h | h) <;> rw [hcj] <;> simp [orStr, h]
  · intro w0 e java w2 hidle hjar hjava
    exact ⟨_, _, launch_idle env fuel args w0 w w2 e java hidle hjar hjava,
      spawnChild_proc env java e args w2⟩

/-- Witness for C4: the sample machine has no Java, yet a supplied path is
taken as it is and only the probe is made. -/
theorem launch_java_selection_witness :
    chooseJava sampleEnv 5 fullOptions ready =
      some (.ok "/opt/jdk/bin/java", logAction (Action.spawn "java" ["-version"]) ready) :=
  (launch_java_selection sampleEnv 5 fullOptions ready).1 "/opt/jdk/bin/java" rfl (by decide)

/-- Counterexample to C4 as stated: the caller supplies `javaPath`, the empty
string, on a machine where detection fails; the child is started with the
freshly installed Java, not with the supplied path, and the extraction tool
was run, so installation was attempted. -/
theorem launch_java_selection_counterexample :
    emptyJavaPathOptions.javaPath = some "" ∧
    (launch sampleEnv 5 emptyJavaPathOptions ready).map
        (fun r => r.2.bbmpProc.map (fun p => p.cmd)) =
      some (some "/u/jre17/jdk-17/bin/java") ∧
    (launch sampleEnv 5 emptyJavaPathOptions ready).map
        (fun r => r.2.trace.contains
          (Action.spawn "tar" ["-xzf", "/u/temurin17.tar.gz", "-C", "/u/jre17"])) =
      some true := by
  decide

/-! ## Frames: what the operations leave alone -/

theorem Frame.same (w : World) : Frame w w := ⟨rfl, rfl, List.prefix_refl _⟩

theorem Frame.andThen {a b c : World} (h1 : Frame a b) (h2 : Frame b c) : Frame a c :=
  ⟨h2.1.trans h1.1, h2.2.1.trans h1.2.1, h1.2.2.trans h2.2.2⟩

theorem Silent.still (w : World) : Silent w w := ⟨rfl, rfl, rfl, rfl⟩

theorem Silent.chain {a b c : World} (h1 : Silent a b) (h2 : Silent b c) : Silent a c :=
  ⟨h2.1.trans h1.1, h2.2.1.trans h1.2.1, h2.2.2.1.trans h1.2.2.1, h2.2.2.2.trans h1.2.2.2⟩

theorem Silent.toFrame {a b : World} (h : Silent a b) : Frame a b :=
  ⟨h.1, h.2.1, by rw [h.2.2.2]⟩

theorem silent_send (ev : Event) (w : World) : Silent w (send ev w) := by
  unfold send
  split
  · exact ⟨rfl, rfl, rfl, rfl⟩
  · exact Silent.still w

theorem quiet_downloadProgress : Quiet downloadProgress :=
  fun q w => silent_send (Event.downloadProgress q) w

theorem quiet_javaProgress : Quiet javaProgress :=
  fun q w => silent_send (Event.javaProgress q) w

theorem frame_logAction (a : Action) (w : World) : Frame w (logAction a w) :=
  ⟨rfl, rfl, List.prefix_append _ _⟩

theorem frame_touch (p : String) (w : World) : Frame w (touch p w) := by
  unfold touch
  split
  · exact Frame.same w
  · exact ⟨rfl, rfl, List.prefix_refl _⟩

theorem frame_rmRecursive (env : Env) (dir : String) (w : World) :
    Frame w (rmRecursive env dir w) := ⟨rfl, rfl, List.prefix_refl _⟩

theorem touch_trace (p : String) (w : World) : (touch p w).trace = w.trace := by
  unfold touch
  split <;> rfl

theorem touch_sent (p : String) (w : World) : (touch p w).sent = w.sent := by
  unfold touch
  split <;> rfl

theorem existsSync_touch (p q : String) (w : World) :
    existsSync p (touch q w) = (existsSync p w || decide (p = q)) := by
  unfold touch existsSync
  split
  · rename_i h
    have hm : q ∈ w.files := by simpa using h
    by_cases hpq : p = q
    · subst hpq
      simp [hm]
    · simp [hpq]
  · by_cases hpq : p = q <;> simp [hpq]

theorem existsSync_touch_self (p : String) (w : World) : existsSync p (touch p w) = true := by
  simp [existsSync_touch]

theorem touch_idem (p : String) (w : World) : touch p (touch p w) = touch p w := by
  have h : (touch p w).files.contains p = true := existsSync_touch_self p w
  generalize touch p w = w2 at h ⊢
  unfold touch
  rw [if_pos h]

theorem onData_silent (o : Option Progress) (ho : ∀ cb, o = some cb → Quiet cb)
    (total : Option Int) (st : Nat × World) (len : Nat) :
    Silent st.2 (onData o total st len).2 := by
  unfold onData
  split
  · rename_i cb t
    split
    · exact Silent.still _
    · exact ho cb rfl _ _
  · exact Silent.still _

theorem foldl_onData_silent (o : Option Progress) (ho : ∀ cb, o = some cb → Quiet cb)
    (total : Option Int) (chunks : List Nat) (st : Nat × World) :
    Silent st.2 (chunks.foldl (onData o total) st).2 := by
  induction chunks generalizing st with
  | nil => exact Silent.still _
  | cons c cs ih =>
    simp only [List.foldl_cons]
    exact (onData_silent o ho total st c).chain (ih _)

theorem receiveBody_silent (env : Env) (o : Option Progress)
    (ho : ∀ cb, o = some cb → Quiet cb) (res : Response) (dest : String) (w : World) :
    Silent (openStream env dest w) (receiveBody env o res dest w).2 := by
  unfold receiveBody
  exact foldl_onData_silent o ho _ _ _

theorem frame_openStream (env : Env) (dest : String) (w : World) :
    Frame w (openStream env dest w) := by
  unfold openStream
  split
  · exact frame_logAction _ w
  · exact (frame_logAction _ w).andThen (frame_touch _ _)

theorem openStream_trace (env : Env) (dest : String) (w : World) :
    (openStream env dest w).trace = w.trace ++ [Action.createWriteStream dest] := by
  unfold openStream
  split
  · rfl
  · rw [touch_trace]
    rfl

theorem bodyOutcome_ok (env : Env) (res : Response) (dest d : String)
    (h : bodyOutcome env res dest = .ok d) :
    d = dest ∧ env.writeStream dest = .completes ∧ res.bodyError = none := by
  unfold bodyOutcome at h
  split at h
  · simp at h
  · rename_i hnone
    split at h
    · rename_i hw
      simp only [Settled.ok.injEq] at h
      exact ⟨h.symm, hw, hnone⟩
    · simp at h

theorem bodyCount_of_trace {w w2 : World} (h : w2.trace = w.trace) :
    bodyCount w2 = bodyCount w := by
  unfold bodyCount
  rw [h]

theorem bodyCount_httpsGet (u : String) (w : World) :
    bodyCount (logAction (Action.httpsGet u) w) = bodyCount w := by
  simp [bodyCount, logAction, List.countP_append]

theorem bodyCount_fetchJSON (u : String) (w : World) :
    bodyCount (logAction (Action.fetchJSON u) w) = bodyCount w := by
  simp [bodyCount, logAction, List.countP_append]

theorem bodyCount_createWriteStream (d : String) (w : World) :
    bodyCount (logAction (Action.createWriteStream d) w) = bodyCount w + 1 := by
  simp [bodyCount, logAction, List.countP_append]

/-! ## Transport -/

theorem receiveBody_effect (env : Env) (o : Option Progress)
    (ho : ∀ cb, o = some cb → Quiet cb) (res : Response) (dest : String) (w : World) :
    Frame w (receiveBody env o res dest w).2 ∧
      (env.writeStream dest = .completes → existsSync dest (receiveBody env o res dest w).2 = true) ∧
      bodyCount (receiveBody env o res dest w).2 = bodyCount w + 1 := by
  have hs := receiveBody_silent env o ho res dest w
  refine ⟨(frame_openStream env dest w).andThen hs.toFrame, ?_, ?_⟩
  · intro hw
    unfold existsSync
    rw [hs.2.2.1]
    unfold openStream
    rw [if_neg (by rw [hw]; decide)]
    exact existsSync_touch_self dest _
  · unfold bodyCount
    rw [hs.2.2.2, openStream_trace]
    simp [List.countP_append]

theorem download_effect (env : Env) (o : Option Progress) (ho : ∀ cb, o = some cb → Quiet cb)
    (dest : String) (fuel : Nat) (url : String) (w : World) (r : Settled String)
    (w1 : World) (h : download env fuel url dest o w = some (r, w1)) :
    Frame w w1 ∧
      (∀ d, r = .ok d → d = dest ∧ existsSync dest w1 = true ∧ bodyCount w1 = bodyCount w + 1) := by
  induction fuel generalizing url w with
  | zero => simp [download] at h
  | succ fuel ih =>
    have hhop : Frame w (logAction (Action.httpsGet url) (touch (env.join dest "..") w)) :=
      (frame_touch _ w).andThen (frame_logAction _ _)
    have hcount : bodyCount (logAction (Action.httpsGet url) (touch (env.join dest "..") w)) =
        bodyCount w := by
      rw [bodyCount_httpsGet, bodyCount_of_trace (touch_trace _ _)]
    unfold download at h
    split at h
    · rename_i e he
      simp only [Option.some.injEq, Prod.mk.injEq] at h
      obtain ⟨rfl, rfl⟩ := h
      exact ⟨hhop, by simp⟩
    · rename_i res hres
      split at h
      · obtain ⟨hf, hok⟩ := ih _ _ h
        refine ⟨hhop.andThen hf, ?_⟩
        intro d hd
        obtain ⟨h1, h2, h3⟩ := hok d hd
        exact ⟨h1, h2, by rw [h3, hcount]⟩
      · split at h
        · simp only [Option.some.injEq, Prod.mk.injEq] at h
          obtain ⟨rfl, rfl⟩ := h
          exact ⟨hhop, by simp⟩
        · simp only [Option.some.injEq] at h
          obtain ⟨hf, hex, hbc⟩ := receiveBody_effect env o ho res dest
            (logAction (Action.httpsGet url) (touch (env.join dest "..") w))
          rw [h] at hf hex hbc
          refine ⟨hhop.andThen hf, ?_⟩
          intro d hd
          have hr : bodyOutcome env res dest = r := by
            have := congrArg Prod.fst h
            simpa [receiveBody] using this
          rw [← hr] at hd
          obtain ⟨h1, h2, _⟩ := bodyOutcome_ok env res dest d hd
          exact ⟨h1, hex h2, by rw [hbc, hcount]⟩

theorem download_chain (env : Env) (o : Option Progress) (dest : String) (n : Nat) (url : String)
    (res : Response) (w : World) (fuel : Nat) (hchain : redirectChain env n url = some res)
    (hfuel : n < fuel) :
    download env fuel url dest o w =
      if res.statusCode = 200 then
        some (receiveBody env o res dest (afterRequests env dest (visited env n url) w))
      else
        some (.error (newError ("HTTP " ++ toString res.statusCode)),
          afterRequests env dest (visited env n url) w) := by
  induction n generalizing url w fuel with
  | zero =>
    obtain ⟨fuel, rfl⟩ : ∃ k, fuel = k + 1 := ⟨fuel - 1, by omega⟩
    unfold redirectChain at hchain
    split at hchain
    · rename_i r hr
      split at hchain
      · simp at hchain
      · rename_i hnot
        simp only [Option.some.injEq] at hchain
        subst hchain
        unfold download
        simp only [hr, hnot, visited, afterRequests, List.foldl_cons, List.foldl_nil]
        by_cases h200 : r.statusCode = 200 <;> simp [h200]
    · simp at hchain
  | succ n ih =>
    obtain ⟨fuel, rfl⟩ : ∃ k, fuel = k + 1 := ⟨fuel - 1, by omega⟩
    unfold redirectChain at hchain
    split at hchain
    · rename_i r hr
      split at hchain
      · rename_i hred
        unfold download
        simp only [hr, hred, visited, afterRequests, List.foldl_cons, if_true]
        rw [ih _ _ _ hchain (by omega)]
        rfl
      · simp at hchain
    · simp at hchain

theorem visited_length (env : Env) (n : Nat) (url : String) (res : Response)
    (hchain : redirectChain env n url = some res) : (visited env n url).length = n + 1 := by
  induction n generalizing url with
  | zero => rfl
  | succ n ih =>
    unfold redirectChain at hchain
    split at hchain
    · rename_i r hr
      split at hchain
      · simp only [visited, hr, List.length_cons]
        rw [ih _ hchain]
      · simp at hchain
    · simp at hchain

theorem touch_logAction (p : String) (a : Action) (w : World) :
    touch p (logAction a w) = logAction a (touch p w) := by
  by_cases h : p ∈ w.files <;> simp [touch, logAction, h]

theorem afterRequests_fields (env : Env) (dest : String) (urls : List String) (w : World) :
    (afterRequests env dest urls w).trace = w.trace ++ urls.map Action.httpsGet ∧
      (afterRequests env dest urls w).files =
        (if urls = [] then w else touch (env.join dest "..") w).files ∧
      (afterRequests env dest urls w).sent = w.sent ∧
      (afterRequests env dest urls w).bbmpProc = w.bbmpProc ∧
      (afterRequests env dest urls w).mainWindow = w.mainWindow := by
  induction urls generalizing w with
  | nil => simp [afterRequests]
  | cons u us ih =>
    have h := ih (logAction (Action.httpsGet u) (touch (env.join dest "..") w))
    unfold afterRequests at h ⊢
    simp only [List.foldl_cons]
    obtain ⟨h1, h2, h3, h4, h5⟩ := h
    refine ⟨?_, ?_, ?_, ?_, ?_⟩
    · rw [h1]
      simp [logAction, touch_trace]
    · rw [h2]
      by_cases hus : us = []
      · simp [hus, logAction]
      · simp only [hus, if_false, List.cons_ne_nil]
        rw [touch_logAction, touch_idem]
        rfl
    · rw [h3]
      simp [logAction, touch_sent]
    · rw [h4]
      exact (frame_touch _ w).2.1
    · rw [h5]
      exact (frame_touch _ w).1

theorem isRedirect_iff (res : Response) :
    isRedirect res = true ↔
      300 ≤ res.statusCode ∧ res.statusCode < 400 ∧ ∃ l, res.location = some l ∧ l ≠ "" := by
  unfold isRedirect truthyStr
  cases res.location <;> simp [and_assoc]

/-- C8 (amended). For every n and every chain of n redirect responses (status
3xx with a location header; an empty header value cannot be followed and
counts as no header) ended by a response that is not one, `download` with more
than n units of fuel requests the n + 1 URLs of the chain for the same
destination. If the final response has status 200, its body arrives without a
stream error and the file stream to the destination takes it without failing,
it succeeds and returns the destination path, which then exists; if the body
stream of the 200 response fails, it fails with the error of the stream. If the final response
has any other status (3xx without a location header and 2xx other than 200
included) it fails with the message "HTTP " followed by that status, having
created nothing but the destination directory and having opened no file. -/
theorem download_follows_redirects (env : Env) (o : Option Progress) (dest : String) (n : Nat)
    (url : String) (res : Response) (w : World) (fuel : Nat)
    (hchain : redirectChain env n url = some res) (hfuel : n < fuel) :
    (visited env n url).length = n + 1 ∧
    (res.statusCode = 200 → res.bodyError = none → env.writeStream dest = .completes →
      download env fuel url dest o w =
        some (.ok dest,
          (receiveBody env o res dest (afterRequests env dest (visited env n url) w)).2) ∧
      ((∀ cb, o = some cb → Quiet cb) →
        existsSync dest
          (receiveBody env o res dest (afterRequests env dest (visited env n url) w)).2 = true)) ∧
    (res.statusCode = 200 → ∀ e, res.bodyError = some e →
      download env fuel url dest o w =
        some (.error e,
          (receiveBody env o res dest (afterRequests env dest (visited env n url) w)).2)) ∧
    (res.statusCode ≠ 200 →
      ∃ w1, download env fuel url dest o w =
          some (.error (newError ("HTTP " ++ toString res.statusCode)), w1) ∧
        w1.trace = w.trace ++ (visited env n url).map Action.httpsGet ∧
        w1.files = (touch (env.join dest "..") w).files ∧ w1.sent = w.sent) ∧
    (afterRequests env dest (visited env n url) w).trace =
      w.trace ++ (visited env n url).map Action.httpsGet ∧
    (∀ r : Response, isRedirect r = true ↔
      300 ≤ r.statusCode ∧ r.statusCode < 400 ∧ ∃ l, r.location = some l ∧ l ≠ "") := by
  have hlen := visited_length env n url res hchain
  have hne : visited env n url ≠ [] := by
    intro h
    rw [h] at hlen
    simp at hlen
  obtain ⟨ht, hf, hs, _, _⟩ := afterRequests_fields env dest (visited env n url) w
  refine ⟨hlen, ?_, ?_, ?_, ht, isRedirect_iff⟩
  · intro h200 hbody hopen
    refine ⟨?_, ?_⟩
    · rw [download_chain env o dest n url res w fuel hchain hfuel, if_pos h200]
      simp [receiveBody, bodyOutcome, hbody, hopen]
    · intro ho
      exact (receiveBody_effect env o ho res dest _).2.1 hopen
  · intro h200 e hbody
    rw [download_chain env o dest n url res w fuel hchain hfuel, if_pos h200]
    simp [receiveBody, bodyOutcome, hbody]
  · intro h200
    refine ⟨_, by rw [download_chain env o dest n url res w fuel hchain hfuel, if_neg h200],
      ht, ?_, hs⟩
    rw [hf, if_neg hne]

/-- Witness for C8: the jar URL of the sample machine redirects once and then
answers 200 with a body that arrives whole. -/
theorem download_follows_redirects_witness :
    download sampleEnv 5 "https://x/app-v2.1.jar" "/u/a.jar" none ready =
      some (.ok "/u/a.jar",
        (receiveBody sampleEnv none (plainBody [3, 4]) "/u/a.jar"
          (afterRequests sampleEnv "/u/a.jar"
            (visited sampleEnv 1 "https://x/app-v2.1.jar") ready)).2) :=
  ((download_follows_redirects sampleEnv none "/u/a.jar" 1 "https://x/app-v2.1.jar"
    (plainBody [3, 4]) ready 5 (by decide) (by decide)).2.1 rfl rfl rfl).1

/-- Counterexample to C8 as stated: the only response has status 200, so it is
the final response of a chain of no redirects, but its body stream fails after
three bytes; the download does not succeed, it fails with the stream error. -/
theorem download_broken_body_counterexample :
    redirectChain brokenEnv 0 "https://x/a.jar" = some brokenBody ∧
    brokenBody.statusCode = 200 ∧
    (download brokenEnv 5 "https://x/a.jar" "/u/a.jar" none ready).map Prod.fst =
      some (.error (newError "aborted")) ∧
    (download brokenEnv 5 "https://x/a.jar" "/u/a.jar" none ready).map Prod.fst ≠
      some (.ok "/u/a.jar") := by
  decide

/-! ## Progress accounting -/

theorem foldl_onData_report (cb : Progress) (T : Int) (hT : T ≠ 0) (chunks : List Nat)
    (done : Nat) (w : World) :
    (chunks.foldl (onData (some cb) (some T)) (done, w)).2 =
      ((runningTotals done chunks).map (fun (d : Nat) => (d : ℚ) / (T : ℚ))).foldl
        (fun acc q => cb q acc) w := by
  induction chunks generalizing done w with
  | nil => rfl
  | cons c cs ih =>
    simp only [List.foldl_cons, runningTotals, List.map_cons]
    have : onData (some cb) (some T) (done, w) c =
        (done + c, cb (((done + c : Nat) : ℚ) / (T : ℚ)) w) := by
      simp [onData, hT]
    rw [this, ih]

theorem foldl_onData_mute (o : Option Progress) (total : Option Int)
    (h : o = none ∨ total = none ∨ total = some 0) (chunks : List Nat) (st : Nat × World) :
    (chunks.foldl (onData o total) st).2 = st.2 := by
  induction chunks generalizing st with
  | nil => rfl
  | cons c cs ih =>
    simp only [List.foldl_cons]
    rw [ih]
    unfold onData
    rcases h with h | h | h <;> subst h <;> simp
    all_goals (cases o <;> simp)

theorem runningTotals_bounds (done : Nat) (chunks : List Nat) :
    ∀ x ∈ runningTotals done chunks, done ≤ x ∧ x ≤ done + chunks.sum := by
  induction chunks generalizing done with
  | nil => simp [runningTotals]
  | cons c cs ih =>
    intro x hx
    simp only [runningTotals, List.mem_cons] at hx
    simp only [List.sum_cons]
    rcases hx with rfl | hx
    · omega
    · have := ih (done + c) x hx
      omega

theorem runningTotals_pairwise (done : Nat) (chunks : List Nat) :
    (runningTotals done chunks).Pairwise (fun a b => a ≤ b) := by
  induction chunks generalizing done with
  | nil => simp [runningTotals]
  | cons c cs ih =>
    simp only [runningTotals, List.pairwise_cons]
    exact ⟨fun x hx => (runningTotals_bounds (done + c) cs x hx).1, ih _⟩

theorem runningTotals_getLast (done : Nat) (chunks : List Nat) (hne : chunks ≠ []) :
    (runningTotals done chunks).getLast? = some (done + chunks.sum) := by
  induction chunks generalizing done with
  | nil => exact absurd rfl hne
  | cons c cs ih =>
    cases cs with
    | nil => simp [runningTotals]
    | cons d ds =>
      have := ih (done + c) (by simp)
      simp only [runningTotals, List.sum_cons] at this ⊢
      rw [List.getLast?_cons_cons, this]
      congr 1
      omega

theorem deltas_sum (prev : ℚ) (l : List ℚ) :
    (deltas prev l).sum = l.getLast?.getD prev - prev := by
  induction l generalizing prev with
  | nil => simp [deltas]
  | cons q rest ih =>
    simp only [deltas, List.sum_cons, ih]
    cases rest with
    | nil => simp
    | cons r rs =>
      rw [List.getLast?_cons_cons, List.getLast?_eq_getLast _ (List.cons_ne_nil r rs)]
      simp

theorem fractions_facts (T : Int) (hT : 0 < T) (chunks : List Nat)
    (hsum : ((chunks.sum : Nat) : Int) = T) :
    (fractions T chunks).Pairwise (fun a b => a ≤ b) ∧
      (∀ q ∈ fractions T chunks, 0 ≤ q ∧ q ≤ 1) ∧
      (fractions T chunks).getLast? = some 1 ∧
      (deltas 0 (fractions T chunks)).sum = 1 := by
  have hTq : (0 : ℚ) < (T : ℚ) := by exact_mod_cast hT
  have hsumq : ((chunks.sum : Nat) : ℚ) = (T : ℚ) := by rw [← hsum, Int.cast_natCast]
  have hne : chunks ≠ [] := by
    rintro rfl
    simp at hsum
    omega
  have hlast : (fractions T chunks).getLast? = some 1 := by
    unfold fractions
    rw [List.getLast?_map, runningTotals_getLast 0 chunks hne]
    simp only [Option.map_some', zero_add, hsumq]
    rw [div_self (ne_of_gt hTq)]
  refine ⟨?_, ?_, hlast, ?_⟩
  · unfold fractions
    refine List.Pairwise.map _ ?_ (runningTotals_pairwise 0 chunks)
    intro a b hab
    exact div_le_div_of_nonneg_right (by exact_mod_cast hab) (le_of_lt hTq)
  · intro q hq
    unfold fractions at hq
    rw [List.mem_map] at hq
    obtain ⟨d, hd, rfl⟩ := hq
    have hb := (runningTotals_bounds 0 chunks d hd).2
    have hdq : (d : ℚ) ≤ (T : ℚ) := by
      rw [← hsumq]
      exact_mod_cast (by omega : d ≤ chunks.sum)
    exact ⟨div_nonneg (by positivity) (le_of_lt hTq), (div_le_one hTq).2 hdq⟩
  · rw [deltas_sum, hlast]
    simp

/-- C7. Take a download that reaches, after any number of redirects, its final
response. If that response has status 200, its content-length parses to T > 0
and its chunks total exactly T bytes, then whatever callback is passed, it is
called once per chunk with the fractions (cumulative bytes) / T in order and
with nothing else, however the promise ends (in particular when it resolves
with the destination); these fractions are non-decreasing, lie in [0,1], end
with 1, and their increments from 0 sum to 1. If the content-length header is
absent or parses to zero, the callback is never called, whatever the status:
the outcome is the one obtained with no callback, and on status 200 the sent
messages are those sent before. -/
theorem download_progress_fractions (env : Env) (dest : String) (n : Nat) (url : String)
    (res : Response) (w : World) (fuel : Nat)
    (hchain : redirectChain env n url = some res) (hfuel : n < fuel) :
    (res.statusCode = 200 →
      ∀ T : Int, totalOf res = some T → 0 < T → ((res.chunks.sum : Nat) : Int) = T →
      (∀ cb : Progress, download env fuel url dest (some cb) w =
        some (bodyOutcome env res dest,
          (fractions T res.chunks).foldl (fun acc q => cb q acc)
            (openStream env dest (afterRequests env dest (visited env n url) w)))) ∧
      (res.bodyError = none → env.writeStream dest = .completes →
        ∀ cb : Progress, download env fuel url dest (some cb) w =
          some (.ok dest,
            (fractions T res.chunks).foldl (fun acc q => cb q acc)
              (touch dest (logAction (Action.createWriteStream dest)
                (afterRequests env dest (visited env n url) w))))) ∧
      (fractions T res.chunks).Pairwise (fun a b => a ≤ b) ∧
      (∀ q ∈ fractions T res.chunks, 0 ≤ q ∧ q ≤ 1) ∧
      (fractions T res.chunks).getLast? = some 1 ∧
      (deltas 0 (fractions T res.chunks)).sum = 1) ∧
    ((res.contentLength = none ∨ totalOf res = some 0) →
      ∀ cb : Progress,
        download env fuel url dest (some cb) w = download env fuel url dest none w ∧
        (res.statusCode = 200 →
          download env fuel url dest (some cb) w =
            some (bodyOutcome env res dest,
              openStream env dest (afterRequests env dest (visited env n url) w)) ∧
          (res.bodyError = none → env.writeStream dest = .completes →
            download env fuel url dest (some cb) w =
              some (.ok dest, touch dest (logAction (Action.createWriteStream dest)
                (afterRequests env dest (visited env n url) w)))) ∧
          (openStream env dest (afterRequests env dest (visited env n url) w)).sent =
            w.sent)) := by
  have hnominal : res.bodyError = none → env.writeStream dest = .completes →
      bodyOutcome env res dest = .ok dest ∧
      openStream env dest (afterRequests env dest (visited env n url) w) =
        touch dest (logAction (Action.createWriteStream dest)
          (afterRequests env dest (visited env n url) w)) := by
    intro hbody hopen
    simp [bodyOutcome, openStream, hbody, hopen]
  constructor
  · intro h200 T hT hpos hsum
    have hgen : ∀ cb : Progress, download env fuel url dest (some cb) w =
        some (bodyOutcome env res dest,
          (fractions T res.chunks).foldl (fun acc q => cb q acc)
            (openStream env dest (afterRequests env dest (visited env n url) w))) := by
      intro cb
      rw [download_chain env (some cb) dest n url res w fuel hchain hfuel, if_pos h200]
      unfold receiveBody
      rw [hT, foldl_onData_report cb T (ne_of_gt hpos)]
      rfl
    refine ⟨hgen, ?_, fractions_facts T hpos res.chunks hsum⟩
    intro hbody hopen cb
    obtain ⟨h1, h2⟩ := hnominal hbody hopen
    rw [hgen cb, h1, h2]
  · intro hzero cb
    have hz : totalOf res = some 0 := by
      rcases hzero with h | h
      · unfold totalOf
        rw [h]
        decide
      · exact h
    have hbody : receiveBody env (some cb) res dest
        (afterRequests env dest (visited env n url) w) =
        (bodyOutcome env res dest,
          openStream env dest (afterRequests env dest (visited env n url) w)) := by
      unfold receiveBody
      rw [foldl_onData_mute (some cb) _ (Or.inr (Or.inr hz))]
    have hnone : receiveBody env none res dest
        (afterRequests env dest (visited env n url) w) =
        (bodyOutcome env res dest,
          openStream env dest (afterRequests env dest (visited env n url) w)) := by
      unfold receiveBody
      rw [foldl_onData_mute none _ (Or.inl rfl)]
    rw [download_chain env (some cb) dest n url res w fuel hchain hfuel,
      download_chain env none dest n url res w fuel hchain hfuel, hbody, hnone]
    refine ⟨rfl, ?_⟩
    intro h200
    refine ⟨by rw [if_pos h200], ?_, ?_⟩
    · intro hb hopen
      obtain ⟨h1, h2⟩ := hnominal hb hopen
      rw [if_pos h200, h1, h2]
    · have hsent : ∀ v : World, (openStream env dest v).sent = v.sent := by
        intro v
        unfold openStream
        split
        · rfl
        · rw [touch_sent]
          rfl
      rw [hsent]
      exact (afterRequests_fields env dest (visited env n url) w).2.2.1

/-- Witness for C7: ten bytes announced, received as 4 and then 6. -/
theorem download_progress_fractions_witness :
    (fractions 10 [4, 6]).getLast? = some 1 ∧ (deltas 0 (fractions 10 [4, 6])).sum = 1 :=
  have h := (download_progress_fractions progressEnv "/u/a.jar" 0 "https://x/a.jar"
    tenBytes ready 5 (by decide) (by decide)).1 rfl 10 (by decide) (by decide) (by decide)
  ⟨h.2.2.2.2.1, h.2.2.2.2.2⟩

/-! ## Artifact store -/

theorem getLatestRelease_world (env : Env) (w : World) :
    (getLatestRelease env w).2 = logAction (Action.fetchJSON releaseApi) w := by
  unfold getLatestRelease
  split
  · rfl
  · dsimp only
    split <;> rfl

theorem getLatestRelease_result (env : Env) (w w2 : World) :
    (getLatestRelease env w).1 = (getLatestRelease env w2).1 := by
  unfold getLatestRelease
  split
  · rfl
  · dsimp only
    split <;> rfl

theorem requestCount_fetchJSON (u : String) (w : World) :
    requestCount (logAction (Action.fetchJSON u) w) = requestCount w := by
  simp [requestCount, logAction, List.countP_append]

theorem ensureJar_unfold (env : Env) (fuel : Nat) (w : World) (rel : ReleaseDescriptor)
    (hrel : (getLatestRelease env w).1 = .ok rel) :
    ensureJar env fuel w =
      if existsSync (jarPath env rel.tag) w then
        some (.ok { path := jarPath env rel.tag, version := rel.tag },
          logAction (Action.fetchJSON releaseApi) w)
      else
        match download env fuel rel.url (jarPath env rel.tag) (some downloadProgress)
            (logAction (Action.fetchJSON releaseApi) w) with
        | none => none
        | some (.error e, w2) => some (.error e, w2)
        | some (.ok _, w2) => some (.ok { path := jarPath env rel.tag, version := rel.tag }, w2)
        | some (.pending, w2) => some (.pending, w2) := by
  have hw := getLatestRelease_world env w
  unfold ensureJar
  generalize getLatestRelease env w = r at hrel hw
  obtain ⟨r1, r2⟩ := r
  simp only at hrel hw
  subst hrel hw
  rfl

/-- C5. For every release tag and filesystem state: when the remote latest
release is the same for both calls, the jar is not yet at the tag's path and the
download of the first `ensureJar` call succeeds, then the first call returns
the record for that path and leaves the world the download produced; every
second call makes the metadata request and nothing else (no download request,
no file opened) and returns the same record, so that over both calls exactly one
response body was fetched. The path is `join(userDir,
"BlueBerryMinecraftProxy-<tag>.jar")`. -/
theorem ensureJar_twice_one_download (env : Env) (fuel : Nat) (w w1 : World)
    (rel : ReleaseDescriptor) (d : String)
    (hrel : (getLatestRelease env w).1 = .ok rel)
    (hmiss : existsSync (jarPath env rel.tag) w = false)
    (hdl : download env fuel rel.url (jarPath env rel.tag) (some downloadProgress)
      (logAction (Action.fetchJSON releaseApi) w) = some (.ok d, w1)) :
    ensureJar env fuel w = some (.ok { path := jarPath env rel.tag, version := rel.tag }, w1) ∧
    (∀ fuel2, ensureJar env fuel2 w1 =
      some (.ok { path := jarPath env rel.tag, version := rel.tag },
        logAction (Action.fetchJSON releaseApi) w1)) ∧
    bodyCount (logAction (Action.fetchJSON releaseApi) w1) = bodyCount w + 1 ∧
    requestCount (logAction (Action.fetchJSON releaseApi) w1) = requestCount w1 ∧
    jarPath env rel.tag =
      env.join env.userData ("BlueBerryMinecraftProxy-" ++ rel.tag ++ ".jar") := by
  have hq : ∀ cb, some downloadProgress = some cb → Quiet cb := by
    intro cb h
    cases h
    exact quiet_downloadProgress
  obtain ⟨_, hok⟩ := download_effect env _ hq _ _ _ _ _ _ hdl
  obtain ⟨_, hex, hbc⟩ := hok d rfl
  refine ⟨?_, ?_, ?_, requestCount_fetchJSON _ _, rfl⟩
  · rw [ensureJar_unfold env fuel w rel hrel, hmiss]
    simp [hdl]
  · intro fuel2
    have hrel1 : (getLatestRelease env w1).1 = .ok rel := by
      rw [getLatestRelease_result env w1 w, hrel]
    rw [ensureJar_unfold env fuel2 w1 rel hrel1, hex]
    rfl
  · rw [bodyCount_fetchJSON, hbc, bodyCount_fetchJSON]

/-- Witness for C5: the sample machine, whose feed is the scenario of tag v2.1. -/
theorem ensureJar_twice_one_download_witness :
    ensureJar sampleEnv 5 ready =
      some (.ok { path := "/u/BlueBerryMinecraftProxy-v2.1.jar", version := "v2.1" },
        sampleDownloaded) ∧
    ensureJar sampleEnv 0 sampleDownloaded =
      some (.ok { path := "/u/BlueBerryMinecraftProxy-v2.1.jar", version := "v2.1" },
        logAction (Action.fetchJSON releaseApi) sampleDownloaded) :=
  have h := ensureJar_twice_one_download sampleEnv 5 ready sampleDownloaded
    { tag := "v2.1", url := "https://x/app-v2.1.jar", name := "app-v2.1.JAR" }
    "/u/BlueBerryMinecraftProxy-v2.1.jar" (by decide) (by decide) (by decide)
  ⟨h.1, h.2.1 0⟩

/-! ## Version label of a custom download -/

theorem matchVersionAt_none (t : List Char) (h : matchVersionAt t = none) : ¬ StartsVersion t := by
  rintro ⟨c, x, rest, rfl, hc, hx⟩
  simp [matchVersionAt, hc, List.takeWhile_cons, hx] at h

theorem matchVersionAt_some (a : Char) (t m : List Char) (h : matchVersionAt (a :: t) = some m) :
    (a = 'v' ∨ a = 'V') ∧ t.takeWhile isVersionChar ≠ [] ∧
      m = a :: t.takeWhile isVersionChar := by
  simp only [matchVersionAt] at h
  split at h
  · rename_i hv
    split at h
    · simp at h
    · rename_i hne
      simp only [Option.some.injEq] at h
      exact ⟨hv, fun hnil => hne hnil, h.symm⟩
  · simp at h

theorem not_startsVersion_drop_nil (i : Nat) : ¬ StartsVersion (([] : List Char).drop i) := by
  rintro ⟨c, x, rest, h, _⟩
  simp at h

theorem matchVersion_cases (s : List Char) :
    (matchVersion s = none ∧ ∀ i, ¬ StartsVersion (s.drop i)) ∨
    (∃ pre c run post, s = pre ++ c :: (run ++ post) ∧ (c = 'v' ∨ c = 'V') ∧ run ≠ [] ∧
      (∀ x ∈ run, isVersionChar x = true) ∧ (∀ x rest, post = x :: rest → isVersionChar x = false) ∧
      (∀ i, i < pre.length → ¬ StartsVersion (s.drop i)) ∧ matchVersion s = some (c :: run)) := by
  induction s with
  | nil => exact Or.inl ⟨rfl, not_startsVersion_drop_nil⟩
  | cons a t ih =>
    cases hm : matchVersionAt (a :: t) with
    | some m =>
      obtain ⟨hv, hne, rfl⟩ := matchVersionAt_some a t m hm
      refine Or.inr ⟨[], a, t.takeWhile isVersionChar, t.dropWhile isVersionChar, ?_, hv, hne,
        ?_, ?_, ?_, ?_⟩
      · simp
      · intro x hx
        exact List.mem_takeWhile_imp hx
      · intro x rest hpost
        have h := List.head?_dropWhile_not isVersionChar t
        rw [hpost] at h
        simpa using h
      · intro i hi
        simp at hi
      · simp [matchVersion, hm]
    | none =>
      have h0 := matchVersionAt_none _ hm
      have hrec : matchVersion (a :: t) = matchVersion t := by
        simp [matchVersion, hm]
      rcases ih with ⟨hn, hall⟩ | ⟨pre, c, run, post, hs, hv, hne, hrun, hpost, hleft, hmv⟩
      · refine Or.inl ⟨by rw [hrec, hn], ?_⟩
        intro i
        cases i with
        | zero => exact h0
        | succ i => exact hall i
      · refine Or.inr ⟨a :: pre, c, run, post, by rw [hs]; rfl, hv, hne, hrun, hpost, ?_,
          by rw [hrec, hmv]⟩
        intro i hi
        cases i with
        | zero => exact h0
        | succ i =>
          simp only [List.drop_succ_cons]
          exact hleft i (by simpa using hi)

theorem splitSlash_ne_nil (cs : List Char) : splitSlash cs ≠ [] := by
  induction cs with
  | nil => simp [splitSlash]
  | cons c cs ih =>
    unfold splitSlash
    split
    · simp
    · split <;> simp

theorem splitSlash_last (cs : List Char) :
    (∀ x ∈ (splitSlash cs).getLastD [], x ≠ '/') ∧
      (((splitSlash cs).length = 1 ∧ cs = (splitSlash cs).getLastD []) ∨
        (2 ≤ (splitSlash cs).length ∧ ∃ pre, cs = pre ++ '/' :: (splitSlash cs).getLastD [])) := by
  induction cs with
  | nil => simp [splitSlash]
  | cons c cs ih =>
    obtain ⟨hno, hdec⟩ := ih
    cases hsp : splitSlash cs with
    | nil => exact absurd hsp (splitSlash_ne_nil cs)
    | cons seg rest =>
      rw [hsp] at hno hdec
      by_cases hc : c = '/'
      · subst hc
        have hsp2 : splitSlash ('/' :: cs) = [] :: seg :: rest := by
          simp [splitSlash, hsp]
        rw [hsp2]
        have hl : ([] :: seg :: rest).getLastD [] = (seg :: rest).getLastD [] := by
          simp [List.getLastD_cons]
        rw [hl]
        refine ⟨hno, Or.inr ⟨by simp, ?_⟩⟩
        rcases hdec with ⟨_, h⟩ | ⟨_, pre, h⟩
        · exact ⟨[], by rw [← h]; rfl⟩
        · exact ⟨'/' :: pre, by rw [h]; rfl⟩
      · have hsp2 : splitSlash (c :: cs) = (c :: seg) :: rest := by
          simp [splitSlash, hsp, hc]
        rw [hsp2]
        cases rest with
        | nil =>
          simp only [List.getLastD_cons, List.getLastD_nil] at hno hdec ⊢
          refine ⟨?_, Or.inl ⟨rfl, ?_⟩⟩
          · intro x hx
            rcases List.mem_cons.1 hx with rfl | hx
            · exact hc
            · exact hno x hx
          · rcases hdec with ⟨_, h⟩ | ⟨h2, _⟩
            · rw [← h]
            · simp at h2
        | cons seg2 rest2 =>
          have hl : ((c :: seg) :: seg2 :: rest2).getLastD [] =
              (seg :: seg2 :: rest2).getLastD [] := by
            simp [List.getLastD_cons]
          rw [hl]
          refine ⟨hno, Or.inr ⟨by simp, ?_⟩⟩
          rcases hdec with ⟨h1, _⟩ | ⟨_, pre, h⟩
          · simp at h1
          · exact ⟨c :: pre, by rw [h]; rfl⟩

theorem versionGuess_of_match (name : String) (c : Char) (run : List Char)
    (h : matchVersion name.data = some (c :: run)) : versionGuess name = String.mk (c :: run) := by
  unfold versionGuess
  rw [h]
  have : String.mk (c :: run) ≠ "" := by
    intro hc
    have := congrArg String.data hc
    simp at this
  simp [this]

theorem versionGuess_ne_empty (name : String) : versionGuess name ≠ "" := by
  rcases matchVersion_cases name.data with ⟨hn, _⟩ | ⟨pre, c, run, post, _, _, _, _, _, _, hm⟩
  · unfold versionGuess
    rw [hn]
    decide
  · rw [versionGuess_of_match name c run hm]
    intro hc
    have := congrArg String.data hc
    simp at this

/-- C9. For every URL, when the download succeeds the handler `download-jar-url`
replies with the destination, the file name and a version label that is never
empty. The file name is the part of the URL after its last '/' (the whole URL
when it has none), or "bbmp.jar" when that part is empty. If somewhere in the
file name a 'v' or 'V' is followed by a character among the digits, '.', '_'
and '-', the label is the match at the leftmost such position: that letter and
the longest run of such characters after it. If there is no such position, the
label is "custom". -/
theorem downloadJarUrl_version_label (env : Env) (fuel : Nat) (url : String) (w : World) :
    (∀ d w1,
      download env fuel url (env.join env.userData (filenameOf url)) (some downloadProgress) w =
        some (.ok d, w1) →
      downloadJarUrl env fuel url w =
        some (.custom (env.join env.userData (filenameOf url)) (versionGuess (filenameOf url))
          (filenameOf url), w1)) ∧
    versionGuess (filenameOf url) ≠ "" ∧
    (lastSegment url = "" → filenameOf url = "bbmp.jar") ∧
    (lastSegment url ≠ "" → filenameOf url = lastSegment url) ∧
    (∀ x ∈ (lastSegment url).data, x ≠ '/') ∧
    (url.data = (lastSegment url).data ∨ ∃ pre, url.data = pre ++ '/' :: (lastSegment url).data) ∧
    ((∃ i, StartsVersion ((filenameOf url).data.drop i)) →
      ∃ pre c run post, (filenameOf url).data = pre ++ c :: (run ++ post) ∧
        (c = 'v' ∨ c = 'V') ∧ run ≠ [] ∧ (∀ x ∈ run, isVersionChar x = true) ∧
        (∀ x rest, post = x :: rest → isVersionChar x = false) ∧
        (∀ i, i < pre.length → ¬ StartsVersion ((filenameOf url).data.drop i)) ∧
        versionGuess (filenameOf url) = String.mk (c :: run)) ∧
    ((∀ i, ¬ StartsVersion ((filenameOf url).data.drop i)) →
      versionGuess (filenameOf url) = "custom") ∧
    (∀ x : Char, isVersionChar x = true ↔
      (x.isDigit = true ∨ x = '.' ∨ x = '_' ∨ x = '-')) := by
  obtain ⟨hno, hdec⟩ := splitSlash_last url.data
  refine ⟨?_, versionGuess_ne_empty _, ?_, ?_, hno, ?_, ?_, ?_, ?_⟩
  · intro d w1 hdl
    unfold downloadJarUrl
    simp only [getUserDir, hdl]
  · intro h
    simp [filenameOf, h]
  · intro h
    simp [filenameOf, h]
  · rcases hdec with ⟨_, h⟩ | ⟨_, pre, h⟩
    · exact Or.inl h
    · exact Or.inr ⟨pre, h⟩
  · rintro ⟨i, hi⟩
    rcases matchVersion_cases (filenameOf url).data with
      ⟨_, hall⟩ | ⟨pre, c, run, post, hs, hv, hne, hrun, hpost, hleft, hm⟩
    · exact absurd hi (hall i)
    · exact ⟨pre, c, run, post, hs, hv, hne, hrun, hpost, hleft,
        versionGuess_of_match _ c run hm⟩
  · intro hall
    rcases matchVersion_cases (filenameOf url).data with
      ⟨hn, _⟩ | ⟨pre, c, run, post, hs, hv, hne, hrun, _, _, _⟩
    · unfold versionGuess
      rw [hn]
    · exfalso
      cases run with
      | nil => exact hne rfl
      | cons x xs =>
        refine hall pre.length ⟨c, x, xs ++ post, ?_, hv, hrun x (List.mem_cons_self _ _)⟩
        rw [hs]
        simp
  · intro x
    simp [isVersionChar, or_assoc]

/-- Witness for C9: the scenario URL, whose file name has no version pattern. -/
theorem downloadJarUrl_version_label_witness :
    downloadJarUrl sampleEnv 5 "https://x/custom-build.jar" ready =
      some (.custom "/u/custom-build.jar" "custom" "custom-build.jar",
        { mainWindow := true, bbmpProc := none, files := ["/u", "/u/custom-build.jar"],
          sent := [],
          trace := [Action.httpsGet "https://x/custom-build.jar",
                    Action.createWriteStream "/u/custom-build.jar"] }) :=
  (downloadJarUrl_version_label sampleEnv 5 "https://x/custom-build.jar" ready).1
    "/u/custom-build.jar" _ (by decide)

/-! ## Runtime provisioner -/

/-- C10. For every extraction tree the search that ends `downloadJava` returns
the first path that exists in the order bin/java, bin/java.exe,
jdk-17/bin/java, jdk-17/bin/java.exe under the installation directory; it
returns null exactly when none of the four exists, and a tree in which only
jdk-17/bin/java exists resolves to that path. Whenever the archive was
downloaded and unpacked, the result of `downloadJava` is the result of this
search in `join(userDir, "jre17")`. -/
theorem downloadJava_candidate_search (env : Env) (jreDir : String) (w : World) :
    findJava env jreDir w candidates =
      (if existsSync (env.join jreDir "bin/java") w = true then
        some (env.join jreDir "bin/java")
      else if existsSync (env.join jreDir "bin/java.exe") w = true then
        some (env.join jreDir "bin/java.exe")
      else if existsSync (env.join jreDir "jdk-17/bin/java") w = true then
        some (env.join jreDir "jdk-17/bin/java")
      else if existsSync (env.join jreDir "jdk-17/bin/java.exe") w = true then
        some (env.join jreDir "jdk-17/bin/java.exe")
      else none) ∧
    (findJava env jreDir w candidates = none ↔
      (existsSync (env.join jreDir "bin/java") w = false ∧
       existsSync (env.join jreDir "bin/java.exe") w = false ∧
       existsSync (env.join jreDir "jdk-17/bin/java") w = false ∧
       existsSync (env.join jreDir "jdk-17/bin/java.exe") w = false)) ∧
    (existsSync (env.join jreDir "bin/java") w = false →
      existsSync (env.join jreDir "bin/java.exe") w = false →
      existsSync (env.join jreDir "jdk-17/bin/java") w = true →
      findJava env jreDir w candidates = some (env.join jreDir "jdk-17/bin/java")) ∧
    (∀ fuel o w0 d w1 w3,
      download env fuel (adoptiumBinaryInfo env).url
        (env.join env.userData ("temurin17" ++ (adoptiumBinaryInfo env).ext)) o w0 =
          some (.ok d, w1) →
      extractArchive env (adoptiumBinaryInfo env).ext
        (env.join env.userData ("temurin17" ++ (adoptiumBinaryInfo env).ext))
        (env.join env.userData "jre17")
        (touch (env.join env.userData "jre17")
          (rmRecursive env (env.join env.userData "jre17") w1)) = (.ok (), w3) →
      downloadJava env fuel o w0 =
        some (.ok (findJava env (env.join env.userData "jre17") w3 candidates), w3)) := by
  have hdef : findJava env jreDir w candidates =
      (if existsSync (env.join jreDir "bin/java") w = true then
        some (env.join jreDir "bin/java")
      else if existsSync (env.join jreDir "bin/java.exe") w = true then
        some (env.join jreDir "bin/java.exe")
      else if existsSync (env.join jreDir "jdk-17/bin/java") w = true then
        some (env.join jreDir "jdk-17/bin/java")
      else if existsSync (env.join jreDir "jdk-17/bin/java.exe") w = true then
        some (env.join jreDir "jdk-17/bin/java.exe")
      else none) := rfl
  refine ⟨hdef, ?_, ?_, ?_⟩
  · rw [hdef]
    cases existsSync (env.join jreDir "bin/java") w <;>
      cases existsSync (env.join jreDir "bin/java.exe") w <;>
      cases existsSync (env.join jreDir "jdk-17/bin/java") w <;>
      cases existsSync (env.join jreDir "jdk-17/bin/java.exe") w <;> simp
  · intro h1 h2 h3
    rw [hdef]
    simp [h1, h2, h3]
  · intro fuel o w0 d w1 w3 hdl hex
    unfold downloadJava
    simp only [getUserDir, hdl, hex]

/-- Witness for C10: the archive of the sample machine unpacks into the nested
layout only. -/
theorem downloadJava_candidate_search_witness :
    downloadJava sampleEnv 5 (some javaProgress) ready =
      some (.ok (some "/u/jre17/jdk-17/bin/java"), sampleInstalled) :=
  (downloadJava_candidate_search sampleEnv "/u/jre17" sampleInstalled).2.2.2
    5 (some javaProgress) ready "/u/temurin17.tar.gz" sampleArchived sampleInstalled
    (by decide) (by decide)

/-! ## The session state machine -/

theorem quiet_some (cb : Progress) (h : Quiet cb) : ∀ c, some cb = some c → Quiet c := by
  intro c hc
  cases hc
  exact h

theorem frame_download (env : Env) (o : Option Progress) (ho : ∀ cb, o = some cb → Quiet cb)
    (dest : String) (fuel : Nat) (url : String) (w w1 : World) (r : Settled String)
    (h : download env fuel url dest o w = some (r, w1)) : Frame w w1 :=
  (download_effect env o ho dest fuel url w r w1 h).1

theorem frame_ensureJar (env : Env) (fuel : Nat) (w w1 : World)
    (r : Settled ArtifactRecord) (h : ensureJar env fuel w = some (r, w1)) :
    Frame (logAction (Action.fetchJSON releaseApi) w) w1 := by
  have hw := getLatestRelease_world env w
  unfold ensureJar at h
  generalize getLatestRelease env w = g at h hw
  obtain ⟨g1, g2⟩ := g
  simp only at hw
  subst hw
  cases g1 with
  | error e =>
    simp only [Option.some.injEq, Prod.mk.injEq] at h
    rw [← h.2]
    exact Frame.same _
  | ok latest =>
    simp only at h
    split at h
    · simp only [Option.some.injEq, Prod.mk.injEq] at h
      rw [← h.2]
      exact Frame.same _
    · split at h
      · simp at h
      · rename_i e w2 hdl
        simp only [Option.some.injEq, Prod.mk.injEq] at h
        rw [← h.2]
        exact frame_download env _ (quiet_some _ quiet_downloadProgress) _ _ _ _ _ _ hdl
      · rename_i d w2 hdl
        simp only [Option.some.injEq, Prod.mk.injEq] at h
        rw [← h.2]
        exact frame_download env _ (quiet_some _ quiet_downloadProgress) _ _ _ _ _ _ hdl
      · rename_i w2 hdl
        simp only [Option.some.injEq, Prod.mk.injEq] at h
        rw [← h.2]
        exact frame_download env _ (quiet_some _ quiet_downloadProgress) _ _ _ _ _ _ hdl

theorem frame_foldl_touch (ps : List String) (w : World) :
    Frame w (ps.foldl (fun acc p => touch p acc) w) := by
  induction ps generalizing w with
  | nil => exact Frame.same w
  | cons p ps ih => exact (frame_touch p w).andThen (ih _)

theorem frame_extractArchive (env : Env) (ext tmp jreDir : String) (w : World) :
    Frame w (extractArchive env ext tmp jreDir w).2 := by
  have hf := (frame_logAction (Action.spawn (if ext = ".zip" then "powershell.exe" else "tar")
    (if ext = ".zip" then
      ["-NoProfile", "-Command",
       "Expand-Archive -Path \"" ++ tmp ++ "\" -DestinationPath \"" ++ jreDir ++ "\" -Force"]
    else ["-xzf", tmp, "-C", jreDir])) w).andThen
    (frame_foldl_touch (env.extract (if ext = ".zip" then "powershell.exe" else "tar")
      (if ext = ".zip" then
        ["-NoProfile", "-Command",
         "Expand-Archive -Path \"" ++ tmp ++ "\" -DestinationPath \"" ++ jreDir ++ "\" -Force"]
      else ["-xzf", tmp, "-C", jreDir])).created _)
  unfold extractArchive
  dsimp only
  split
  · exact hf
  · split <;> exact hf

theorem frame_downloadJava (env : Env) (fuel : Nat) (o : Option Progress)
    (ho : ∀ cb, o = some cb → Quiet cb) (w w1 : World) (r : Settled (Option String))
    (h : downloadJava env fuel o w = some (r, w1)) : Frame w w1 := by
  unfold downloadJava at h
  dsimp only at h
  split at h
  · simp at h
  · rename_i e w2 hdl
    simp only [Option.some.injEq, Prod.mk.injEq] at h
    rw [← h.2]
    exact frame_download env o ho _ _ _ _ _ _ hdl
  · rename_i d w2 hdl
    have hfd := frame_download env o ho _ _ _ _ _ _ hdl
    have hfe := frame_extractArchive env (adoptiumBinaryInfo env).ext
      (env.join (getUserDir env) ("temurin17" ++ (adoptiumBinaryInfo env).ext))
      (env.join (getUserDir env) "jre17")
      (touch (env.join (getUserDir env) "jre17")
        (rmRecursive env (env.join (getUserDir env) "jre17") w2))
    have hpre : Frame w (touch (env.join (getUserDir env) "jre17")
        (rmRecursive env (env.join (getUserDir env) "jre17") w2)) :=
      (hfd.andThen (frame_rmRecursive env _ w2)).andThen (frame_touch _ _)
    split at h
    · rename_i e w3 hex
      simp only [Option.some.injEq, Prod.mk.injEq] at h
      rw [← h.2]
      rw [hex] at hfe
      exact hpre.andThen hfe
    · rename_i u w3 hex
      simp only [Option.some.injEq, Prod.mk.injEq] at h
      rw [← h.2]
      rw [hex] at hfe
      exact hpre.andThen hfe
  · rename_i w2 hdl
    simp only [Option.some.injEq, Prod.mk.injEq] at h
    rw [← h.2]
    exact frame_download env o ho _ _ _ _ _ _ hdl

theorem frame_checkJava (env : Env) (w : World) : Frame w (checkJava env w).2 := by
  rw [checkJava_world]
  exact frame_logAction _ w

theorem frame_chooseJava (env : Env) (fuel : Nat) (args : LaunchOptions) (w w1 : World)
    (r : Settled String) (h : chooseJava env fuel args w = some (r, w1)) :
    Frame w w1 := by
  have hc := frame_checkJava env w
  unfold chooseJava at h
  generalize checkJava env w = c at h hc
  obtain ⟨ok, w2⟩ := c
  simp only at h hc
  split at h
  · split at h
    · simp at h
    · rename_i e w3 hdj
      simp only [Option.some.injEq, Prod.mk.injEq] at h
      rw [← h.2]
      exact hc.andThen (frame_downloadJava env fuel _ (quiet_some _ quiet_javaProgress) _ _ _ hdj)
    · rename_i res w3 hdj
      simp only [Option.some.injEq, Prod.mk.injEq] at h
      rw [← h.2]
      exact hc.andThen (frame_downloadJava env fuel _ (quiet_some _ quiet_javaProgress) _ _ _ hdj)
    · rename_i w3 hdj
      simp only [Option.some.injEq, Prod.mk.injEq] at h
      rw [← h.2]
      exact hc.andThen (frame_downloadJava env fuel _ (quiet_some _ quiet_javaProgress) _ _ _ hdj)
  · simp only [Option.some.injEq, Prod.mk.injEq] at h
    rw [← h.2]
    exact hc

theorem launch_idle_effect (env : Env) (fuel : Nat) (args : LaunchOptions) (w w3 : World)
    (r : LaunchReply) (hidle : w.bbmpProc = none) (h : launch env fuel args w = some (r, w3)) :
    w3.mainWindow = w.mainWindow ∧ w.trace ++ [Action.fetchJSON releaseApi] <+: w3.trace := by
  unfold launch at h
  simp only [hidle, Option.isSome_none, Bool.false_eq_true, if_false] at h
  split at h
  · simp at h
  · rename_i e w1 hjar
    simp only [Option.some.injEq, Prod.mk.injEq] at h
    rw [← h.2]
    have hf := frame_ensureJar env fuel w w1 _ hjar
    exact ⟨hf.1, hf.2.2⟩
  · rename_i ensure w1 hjar
    have hf := frame_ensureJar env fuel w w1 _ hjar
    split at h
    · simp at h
    · rename_i e w2 hjava
      simp only [Option.some.injEq, Prod.mk.injEq] at h
      rw [← h.2]
      have hf2 := hf.andThen (frame_chooseJava env fuel args w1 w2 _ hjava)
      exact ⟨hf2.1, hf2.2.2⟩
    · rename_i java w2 hjava
      simp only [Option.some.injEq] at h
      have hf2 := hf.andThen (frame_chooseJava env fuel args w1 w2 _ hjava)
      have hw3 : w3 = (spawnChild env java ensure args w2).2 := by rw [h]
      rw [hw3]
      refine ⟨hf2.1, hf2.2.2.trans ?_⟩
      exact List.prefix_append _ _
    · rename_i w2 hjava
      simp only [Option.some.injEq, Prod.mk.injEq] at h
      rw [← h.2]
      have hf2 := hf.andThen (frame_chooseJava env fuel args w1 w2 _ hjava)
      exact ⟨hf2.1, hf2.2.2⟩
  · rename_i w1 hjar
    simp only [Option.some.injEq, Prod.mk.injEq] at h
    rw [← h.2]
    have hf := frame_ensureJar env fuel w w1 _ hjar
    exact ⟨hf.1, hf.2.2⟩

theorem launch_window (env : Env) (fuel : Nat) (args : LaunchOptions) (w w3 : World)
    (r : LaunchReply) (h : launch env fuel args w = some (r, w3)) :
    w3.mainWindow = w.mainWindow := by
  cases hp : w.bbmpProc with
  | none => exact (launch_idle_effect env fuel args w w3 r hp h).1
  | some p =>
    rw [launch_busy env fuel args w (by simp [hp])] at h
    simp only [Option.some.injEq, Prod.mk.injEq] at h
    rw [← h.2]

theorem frame_downloadLatest (env : Env) (fuel : Nat) (w w1 : World) (r : DownloadReply)
    (h : downloadLatest env fuel w = some (r, w1)) : Frame w w1 := by
  unfold downloadLatest at h
  split at h
  · simp at h
  · rename_i e w2 hjar
    simp only [Option.some.injEq, Prod.mk.injEq] at h
    rw [← h.2]
    exact (frame_logAction _ w).andThen (frame_ensureJar env fuel w w2 _ hjar)
  · rename_i a w2 hjar
    simp only [Option.some.injEq, Prod.mk.injEq] at h
    rw [← h.2]
    exact (frame_logAction _ w).andThen (frame_ensureJar env fuel w w2 _ hjar)
  · rename_i w2 hjar
    simp only [Option.some.injEq, Prod.mk.injEq] at h
    rw [← h.2]
    exact (frame_logAction _ w).andThen (frame_ensureJar env fuel w w2 _ hjar)

theorem frame_downloadJarUrl (env : Env) (fuel : Nat) (url : String) (w w1 : World)
    (r : DownloadReply) (h : downloadJarUrl env fuel url w = some (r, w1)) : Frame w w1 := by
  unfold downloadJarUrl at h
  dsimp only at h
  split at h
  · simp at h
  · rename_i e w2 hdl
    simp only [Option.some.injEq, Prod.mk.injEq] at h
    rw [← h.2]
    exact frame_download env _ (quiet_some _ quiet_downloadProgress) _ _ _ _ _ _ hdl
  · rename_i d w2 hdl
    simp only [Option.some.injEq, Prod.mk.injEq] at h
    rw [← h.2]
    exact frame_download env _ (quiet_some _ quiet_downloadProgress) _ _ _ _ _ _ hdl
  · rename_i w2 hdl
    simp only [Option.some.injEq, Prod.mk.injEq] at h
    rw [← h.2]
    exact frame_download env _ (quiet_some _ quiet_downloadProgress) _ _ _ _ _ _ hdl

theorem frame_installJava (env : Env) (fuel : Nat) (w w1 : World) (r : InstallReply)
    (h : installJava env fuel w = some (r, w1)) : Frame w w1 := by
  unfold installJava at h
  split at h
  · simp at h
  · rename_i e w2 hdj
    simp only [Option.some.injEq, Prod.mk.injEq] at h
    rw [← h.2]
    exact frame_downloadJava env fuel _ (quiet_some _ quiet_javaProgress) _ _ _ hdj
  · rename_i res w2 hdj
    simp only [Option.some.injEq, Prod.mk.injEq] at h
    rw [← h.2]
    exact frame_downloadJava env fuel _ (quiet_some _ quiet_javaProgress) _ _ _ hdj
  · rename_i w2 hdj
    simp only [Option.some.injEq, Prod.mk.injEq] at h
    rw [← h.2]
    exact frame_downloadJava env fuel _ (quiet_some _ quiet_javaProgress) _ _ _ hdj

theorem frame_stop (w : World) : Frame w (stop w) := by
  unfold stop
  split
  · exact frame_logAction _ w
  · exact Frame.same w

theorem map_snd_eq_some {α : Type} (x : Option (α × World)) (w2 : World)
    (h : x.map Prod.snd = some w2) : ∃ r, x = some (r, w2) := by
  cases x with
  | none => simp at h
  | some p =>
    obtain ⟨r, v⟩ := p
    simp only [Option.map_some', Option.some.injEq] at h
    exact ⟨r, by rw [h]⟩

theorem reachable_window (env : Env) (w : World) (h : Reachable env w) :
    w.bbmpProc ≠ none → w.mainWindow = true := by
  induction h with
  | init files => intro hne; exact absurd rfl hne
  | next w w2 i _ hen hstep ih =>
    have keep : Frame w w2 → w2.bbmpProc ≠ none → w2.mainWindow = true := by
      intro hf hne
      rw [hf.1]
      exact ih (by rw [← hf.2.1]; exact hne)
    cases i with
    | createWindow =>
      simp only [step, Option.some.injEq] at hstep
      intro _
      rw [← hstep]
      rfl
    | downloadLatest fuel =>
      obtain ⟨r, hr⟩ := map_snd_eq_some _ _ hstep
      exact keep (frame_downloadLatest env fuel w w2 r hr)
    | downloadJarUrl fuel url =>
      obtain ⟨r, hr⟩ := map_snd_eq_some _ _ hstep
      exact keep (frame_downloadJarUrl env fuel url w w2 r hr)
    | checkJava =>
      simp only [step, Option.some.injEq] at hstep
      have hf : Frame w w2 := by
        rw [← hstep]
        exact frame_checkJava env w
      exact keep hf
    | installJava fuel =>
      obtain ⟨r, hr⟩ := map_snd_eq_some _ _ hstep
      exact keep (frame_installJava env fuel w w2 r hr)
    | launch fuel args =>
      obtain ⟨r, hr⟩ := map_snd_eq_some _ _ hstep
      intro _
      rw [launch_window env fuel args w w2 r hr]
      exact hen
    | stop =>
      simp only [step, Option.some.injEq] at hstep
      have hf : Frame w w2 := by
        rw [← hstep]
        exact frame_stop w
      exact keep hf
    | isRunning =>
      simp only [step, Option.some.injEq] at hstep
      rw [← hstep]
      exact ih
    | childData d =>
      simp only [step, Option.some.injEq] at hstep
      have hf : Frame w w2 := by
        rw [← hstep]
        exact (silent_send _ w).toFrame
      exact keep hf
    | childClose code =>
      simp only [step, Option.some.injEq] at hstep
      intro hne
      rw [← hstep] at hne
      exact absurd rfl hne

/-- C6. In every reachable world with a child, a `close` event with exit code N
sends exactly one exit message, carrying N, after the messages sent so far and
clears the session; nothing else changes. Then `is-running` reports false and
a following launch is not rejected as already running: whatever it returns, it
first requests the release metadata, and it starts a child and replies ok
whenever the artifact and the Java executable are obtained. The handler
`stop-bbmp` never clears the session: it leaves an idle world as it is and
otherwise only sends SIGTERM to the child. -/
theorem close_clears_session (env : Env) (w : World) (code : Option Int)
    (hreach : Reachable env w) (hchild : enabled w (.childClose code) = true) :
    step env w (.childClose code) = some (onClose code w) ∧
    Reachable env (onClose code w) ∧
    (onClose code w).sent = w.sent ++ [Event.bbmpExit code] ∧
    (onClose code w).bbmpProc = none ∧
    (onClose code w).files = w.files ∧ (onClose code w).trace = w.trace ∧
    isRunning (onClose code w) = false ∧
    (∀ fuel args, launch env fuel args (onClose code w) ≠
      some (.error "Already running", onClose code w)) ∧
    (∀ fuel args r w3, launch env fuel args (onClose code w) = some (r, w3) →
      (onClose code w).trace ++ [Action.fetchJSON releaseApi] <+: w3.trace) ∧
    (∀ fuel args e w1 java w2, ensureJar env fuel (onClose code w) = some (.ok e, w1) →
      chooseJava env fuel args w1 = some (.ok java, w2) →
      ∃ v c w3, launch env fuel args (onClose code w) = some (.ok v c, w3) ∧
        isRunning w3 = true) ∧
    (∀ v : World, (stop v).bbmpProc = v.bbmpProc ∧ isRunning (stop v) = isRunning v ∧
      (v.bbmpProc = none → stop v = v) ∧
      (v.bbmpProc ≠ none → stop v = logAction (Action.kill "SIGTERM") v)) := by
  have hproc : w.bbmpProc ≠ none := by
    intro h
    simp [enabled, h] at hchild
  have hwin : w.mainWindow = true := reachable_window env w hreach hproc
  have hidle : (onClose code w).bbmpProc = none := rfl
  have hgrow : ∀ fuel args r w3, launch env fuel args (onClose code w) = some (r, w3) →
      (onClose code w).trace ++ [Action.fetchJSON releaseApi] <+: w3.trace :=
    fun fuel args r w3 h => (launch_idle_effect env fuel args _ w3 r hidle h).2
  refine ⟨rfl, Reachable.next w _ (.childClose code) hreach hchild rfl, ?_, rfl, ?_, ?_, rfl,
    ?_, hgrow, ?_, ?_⟩
  · simp [onClose, send, hwin]
  · simp [onClose, send, hwin]
  · simp [onClose, send, hwin]
  · intro fuel args h
    have hp := hgrow fuel args _ _ h
    have hl := hp.length_le
    simp at hl
  · intro fuel args e w1 java w2 hjar hjava
    have hl := launch_idle env fuel args _ w1 w2 e java hidle hjar hjava
    refine ⟨_, _, _, hl, ?_⟩
    rfl
  · intro v
    refine ⟨(frame_stop v).2.1, by rw [isRunning, isRunning, (frame_stop v).2.1], ?_, ?_⟩
    · intro h
      simp [stop, h]
    · intro h
      cases hp : v.bbmpProc with
      | none => exact absurd hp h
      | some p => simp [stop, hp]

/-- Witness for C6: the sample machine launches, and the child exits with code 3. -/
theorem close_clears_session_witness :
    (onClose (some 3) busy).sent = [Event.bbmpExit (some 3)] ∧
    isRunning (onClose (some 3) busy) = false :=
  have hbusy : Reachable sampleEnv busy :=
    Reachable.next ready busy (.launch 5 fullOptions)
      (Reachable.next (initial []) ready .createWindow (Reachable.init []) rfl rfl)
      rfl (by decide)
  have h := close_clears_session sampleEnv busy (some 3) hbusy (by decide)
  ⟨h.2.2.1, h.2.2.2.2.2.2.1⟩

end BBMP
